import Mathlib

/-!
Verification of the GRCF samplesheet builder core
(`samplesheet_tool`: utils / indexes / io_normalize / resolve / validate / context).

Python strings are modelled as lists of character codes (`PyStr`), absent
values (`None` / NaN) as `Option`, pandas data frames as lists of records,
and `dict`s as association lists. Fatal `ValueError`s become `Except`
errors; accumulated diagnostics are `Problem` lists, as in the source.
-/

namespace SamplesheetTool

/-- A Python `str`, modelled as the list of its character codes. -/
abbrev PyStr := List Nat

/-- Whitespace characters recognised by Python `str.strip` (space, TAB, LF,
VT, FF, CR). -/
def isPySpace (c : Nat) : Bool :=
  c = 32 || c = 9 || c = 10 || c = 11 || c = 12 || c = 13

/-- Python `str.upper` on a single (ASCII) character. -/
def pyUpperChar (c : Nat) : Nat :=
  if 97 ≤ c ∧ c ≤ 122 then c - 32 else c

/-- Python `str.lower` on a single (ASCII) character. -/
def pyLowerChar (c : Nat) : Nat :=
  if 65 ≤ c ∧ c ≤ 90 then c + 32 else c

/-- Python `str.upper`. -/
def pyUpper (s : PyStr) : PyStr := s.map pyUpperChar

/-- Python `str.lower`. -/
def pyLower (s : PyStr) : PyStr := s.map pyLowerChar

/-- Python `str.strip()`: drop leading and trailing whitespace. -/
def pyStrip (s : PyStr) : PyStr :=
  ((s.dropWhile isPySpace).reverse.dropWhile isPySpace).reverse

/-- Python `str.replace(" ", "")`: remove every space character. -/
def removeSpaces (s : PyStr) : PyStr := s.filter (fun c => c ≠ 32)

/-- The character codes of `"NAN"`. -/
def strNAN : PyStr := [78, 65, 78]

/-- The character codes of `"NA"`. -/
def strNA : PyStr := [78, 65]

/-- The character codes of `"NONE"`. -/
def strNONE : PyStr := [78, 79, 78, 69]

/-- The character codes of `"nan"`. -/
def strnan : PyStr := [110, 97, 110]

/-- `utils.normalize_seq`: `None`/NaN input is `none`; otherwise strip,
uppercase and remove spaces, and map the missing-value tokens
`"" / "NAN" / "NA" / "NONE"` to `none`. -/
def normalize_seq : Option PyStr → Option PyStr
  | none => none
  | some s =>
    let v := removeSpaces (pyUpper (pyStrip s))
    if v = [] ∨ v = strNAN ∨ v = strNA ∨ v = strNONE then none else some v

/-- Count of mismatching positions between two equal-length strings
(`sum(ch1 != ch2 for ...)` over `zip`). -/
def hammingCount (a b : PyStr) : Nat :=
  ((a.zip b).filter (fun p => p.1 ≠ p.2)).length

/-- `utils.hamming`: normalize both arguments, return `none` when either is
absent or the lengths differ, else the mismatch count. -/
def hamming (a b : Option PyStr) : Option Nat :=
  match normalize_seq a, normalize_seq b with
  | some x, some y => if x.length = y.length then some (hammingCount x y) else none
  | _, _ => none

/-- Diagnostic severity (`utils.Problem.level`). -/
inductive Level where
  | error
  | warn
  | info
deriving DecidableEq, Repr

/-- `utils.Problem` (the formatted message text is not modelled; the data
that feed it are carried by the surrounding error values where a claim
needs them). -/
structure Problem where
  level : Level
  code : String
  lane : Option Int := none
  sample_id : Option PyStr := none
deriving DecidableEq, Repr

/-! ### Helper lemmas about the string model -/

theorem pyUpperChar_idem (c : Nat) : pyUpperChar (pyUpperChar c) = pyUpperChar c := by
  unfold pyUpperChar
  split
  · split <;> omega
  · rfl

theorem isPySpace_pyUpperChar (c : Nat) : isPySpace (pyUpperChar c) = isPySpace c := by
  unfold pyUpperChar isPySpace
  split
  · have : ¬ (c - 32 = 32 || c - 32 = 9 || c - 32 = 10 || c - 32 = 11 ||
        c - 32 = 12 || c - 32 = 13) = true := by simp; omega
    have hc : ¬ (c = 32 || c = 9 || c = 10 || c = 11 || c = 12 || c = 13) = true := by
      simp; omega
    simp only [Bool.not_eq_true] at this hc
    rw [this, hc]
  · rfl

theorem dropWhile_head_not {α : Type} (p : α → Bool) (l : List α) (a : α) (t : List α)
    (h : l.dropWhile p = a :: t) : p a = false := by
  induction l with
  | nil => simp [List.dropWhile] at h
  | cons b bs ih =>
    rw [List.dropWhile_cons] at h
    by_cases hb : p b = true
    · rw [if_pos hb] at h
      exact ih h
    · rw [if_neg hb] at h
      cases h
      exact Bool.not_eq_true _ |>.mp hb

theorem getLast?_dropWhile {α : Type} (p : α → Bool) (l : List α) (a : α) (t : List α)
    (h : l.dropWhile p = a :: t) : l.getLast? = (a :: t).getLast? := by
  induction l with
  | nil => simp [List.dropWhile] at h
  | cons b bs ih =>
    rw [List.dropWhile_cons] at h
    by_cases hb : p b = true
    · rw [if_pos hb] at h
      cases bs with
      | nil => simp [List.dropWhile] at h
      | cons c cs =>
        rw [List.getLast?_cons_cons]
        exact ih h
    · rw [if_neg hb] at h
      rw [h]

theorem dropWhile_eq_self_of_head {α : Type} (p : α → Bool) (l : List α)
    (h : ∀ a t, l = a :: t → p a = false) : l.dropWhile p = l := by
  cases l with
  | nil => rfl
  | cons a t =>
    rw [List.dropWhile_cons, if_neg]
    rw [h a t rfl]
    simp

/-- A string whose first and last characters are not whitespace is fixed by
`pyStrip`. -/
theorem pyStrip_eq_self (r : PyStr)
    (h1 : ∀ a t, r = a :: t → isPySpace a = false)
    (h2 : ∀ a t, r.reverse = a :: t → isPySpace a = false) :
    pyStrip r = r := by
  unfold pyStrip
  rw [dropWhile_eq_self_of_head _ _ h1, dropWhile_eq_self_of_head _ _ h2,
    List.reverse_reverse]

theorem map_eq_self_of_mem {α : Type} (f : α → α) (l : List α)
    (h : ∀ a ∈ l, f a = a) : l.map f = l := by
  induction l with
  | nil => rfl
  | cons a t ih =>
    simp only [List.map_cons, h a (List.mem_cons_self a t),
      ih (fun b hb => h b (List.mem_cons_of_mem a hb))]

theorem pyStrip_head_not_space (s : PyStr) (a : Nat) (t : PyStr)
    (h : pyStrip s = a :: t) : isPySpace a = false := by
  unfold pyStrip at h
  generalize hx1 : s.dropWhile isPySpace = x1 at h
  generalize hx2 : x1.reverse.dropWhile isPySpace = x2 at h
  cases x2 with
  | nil => simp at h
  | cons c cs =>
    have hgl : x1.reverse.getLast? = (c :: cs).getLast? := getLast?_dropWhile _ _ _ _ hx2
    rw [List.getLast?_reverse] at hgl
    have hh : (c :: cs).reverse.head? = some a := by rw [h]; rfl
    rw [List.head?_reverse] at hh
    rw [hh] at hgl
    cases x1 with
    | nil => simp at hgl
    | cons d ds =>
      simp only [List.head?_cons, Option.some.injEq] at hgl
      subst hgl
      exact dropWhile_head_not _ _ _ _ hx1

theorem pyStrip_reverse_head_not_space (s : PyStr) (a : Nat) (t : PyStr)
    (h : (pyStrip s).reverse = a :: t) : isPySpace a = false := by
  unfold pyStrip at h
  rw [List.reverse_reverse] at h
  exact dropWhile_head_not _ _ _ _ h

theorem filter_map_cons_head (u : Nat → Nat) (q : Nat → Bool) (a : Nat) (t : PyStr)
    (hq : q (u a) = true) :
    (((a :: t).map u).filter q).head? = some (u a) := by
  simp only [List.map_cons, List.filter_cons, hq, if_true, List.head?_cons]

theorem normalize_seq_some (s : PyStr) :
    normalize_seq (some s) =
      if removeSpaces (pyUpper (pyStrip s)) = [] ∨
          removeSpaces (pyUpper (pyStrip s)) = strNAN ∨
          removeSpaces (pyUpper (pyStrip s)) = strNA ∨
          removeSpaces (pyUpper (pyStrip s)) = strNONE
      then none else some (removeSpaces (pyUpper (pyStrip s))) := rfl

theorem normalize_seq_some_ne_nil (o : Option PyStr) (v : PyStr)
    (h : normalize_seq o = some v) : v ≠ [] := by
  cases o with
  | none => simp [normalize_seq] at h
  | some s =>
    rw [normalize_seq_some] at h
    split at h
    · exact absurd h (by simp)
    · rename_i hc
      simp only [Option.some.injEq] at h
      subst h
      intro hnil
      exact hc (Or.inl hnil)

/-- Idempotence of `normalize_seq` on non-absent outputs. -/
theorem normalize_seq_idem (s r : PyStr) (h : normalize_seq (some s) = some r) :
    normalize_seq (some r) = some r := by
  rw [normalize_seq_some] at h
  split at h
  · exact absurd h (by simp)
  rename_i hc
  simp only [Option.some.injEq] at h
  -- `r` is the stripped/uppercased/space-free image of `s`
  have hr : removeSpaces (pyUpper (pyStrip s)) = r := h
  rw [hr] at hc
  have hrne : r ≠ [] := fun hnil => hc (Or.inl hnil)
  -- every character of `r` is an uppercased non-space character
  have hmem : ∀ a ∈ r, pyUpperChar a = a ∧ (a ≠ 32) := by
    intro a ha
    rw [← hr] at ha
    unfold removeSpaces at ha
    have hmf := List.mem_filter.mp ha
    obtain ⟨hmap, hne⟩ := hmf
    obtain ⟨b, _, hb⟩ := List.mem_map.mp hmap
    constructor
    · rw [← hb, pyUpperChar_idem]
    · exact fun hEq => by simp [hEq] at hne
  -- the first character of `r` is not whitespace
  have hhead : ∀ a t, r = a :: t → isPySpace a = false := by
    intro a t hrt
    rw [← hr] at hrt
    unfold removeSpaces pyUpper at hrt
    cases hy : pyStrip s with
    | nil => rw [hy] at hrt; simp at hrt
    | cons hy0 ty =>
      have hsp : isPySpace hy0 = false := pyStrip_head_not_space s hy0 ty hy
      have hq : (fun c => decide (c ≠ 32)) (pyUpperChar hy0) = true := by
        simp only [decide_eq_true_eq]
        intro hEq
        rw [← isPySpace_pyUpperChar hy0, hEq] at hsp
        simp [isPySpace] at hsp
      have := filter_map_cons_head pyUpperChar (fun c => decide (c ≠ 32)) hy0 ty hq
      rw [hy] at hrt
      rw [hrt] at this
      simp only [List.head?_cons, Option.some.injEq] at this
      rw [this, isPySpace_pyUpperChar]
      exact hsp
  -- the last character of `r` is not whitespace
  have hlast : ∀ a t, r.reverse = a :: t → isPySpace a = false := by
    intro a t hrt
    rw [← hr] at hrt
    unfold removeSpaces pyUpper at hrt
    rw [← List.filter_reverse, ← List.map_reverse] at hrt
    cases hy : (pyStrip s).reverse with
    | nil => rw [hy] at hrt; simp at hrt
    | cons hy0 ty =>
      have hsp : isPySpace hy0 = false := pyStrip_reverse_head_not_space s hy0 ty hy
      have hq : (fun c => decide (c ≠ 32)) (pyUpperChar hy0) = true := by
        simp only [decide_eq_true_eq]
        intro hEq
        rw [← isPySpace_pyUpperChar hy0, hEq] at hsp
        simp [isPySpace] at hsp
      have := filter_map_cons_head pyUpperChar (fun c => decide (c ≠ 32)) hy0 ty hq
      rw [hy] at hrt
      rw [hrt] at this
      simp only [List.head?_cons, Option.some.injEq] at this
      rw [this, isPySpace_pyUpperChar]
      exact hsp
  have hstrip : pyStrip r = r := pyStrip_eq_self r hhead hlast
  have hupper : pyUpper r = r :=
    map_eq_self_of_mem pyUpperChar r (fun a ha => (hmem a ha).1)
  have hfilter : removeSpaces r = r := by
    unfold removeSpaces
    exact List.filter_eq_self.mpr (fun a ha => by
      simp only [decide_eq_true_eq]
      exact (hmem a ha).2)
  rw [normalize_seq_some, hstrip, hupper, hfilter, if_neg hc]

/-! ### Association lists (Python `dict`s) and lookup merging (`indexes.py`) -/

/-- First value bound to a key in an association list (`dict` lookup). -/
def lookupKV {K V : Type} [DecidableEq K] : List (K × V) → K → Option V
  | [], _ => none
  | (k, v) :: tl, q => if q = k then some v else lookupKV tl q

/-- Distinct elements of a list, keeping first occurrences (pandas
`unique()` / first occurrence of `set` iteration used via dedup checks). -/
def uniqueFirst {α : Type} [DecidableEq α] (l : List α) : List α :=
  go [] l
where
  go (seen : List α) : List α → List α
    | [] => []
    | a :: t => if a ∈ seen then go seen t else a :: go (a :: seen) t

/-- Data of the `ValueError` raised on a merge collision: the ID and the
two conflicting values. -/
structure Collision (V : Type) where
  key : PyStr
  oldVal : V
  newVal : V
deriving DecidableEq

/-- Loop body of the merge: `merged[k] = v` guarded by the collision
check (`indexes.merge_single_lookups` / `merge_pair_lookups`). -/
def insertChecked {V : Type} [DecidableEq V] (acc : List (PyStr × V)) (k : PyStr) (v : V) :
    Except (Collision V) (List (PyStr × V)) :=
  match lookupKV acc k with
  | some w => if w = v then Except.ok acc else Except.error ⟨k, w, v⟩
  | none => Except.ok (acc ++ [(k, v)])

def mergeAux {V : Type} [DecidableEq V] (acc : List (PyStr × V)) :
    List (PyStr × V) → Except (Collision V) (List (PyStr × V))
  | [] => Except.ok acc
  | (k, v) :: tl =>
    match insertChecked acc k v with
    | Except.ok acc2 => mergeAux acc2 tl
    | Except.error e => Except.error e

/-- Shared loop of `merge_single_lookups` and `merge_pair_lookups`:
iterate the source tables in order, inserting every binding with the
collision check. -/
def mergeLookups {V : Type} [DecidableEq V] (lookups : List (List (PyStr × V))) :
    Except (Collision V) (List (PyStr × V)) :=
  mergeAux [] lookups.flatten

/-- `indexes.merge_single_lookups`. -/
def merge_single_lookups (lookups : List (List (PyStr × PyStr))) :
    Except (Collision PyStr) (List (PyStr × PyStr)) :=
  mergeLookups lookups

/-- `indexes.merge_pair_lookups`. -/
def merge_pair_lookups (lookups : List (List (PyStr × (PyStr × PyStr)))) :
    Except (Collision (PyStr × PyStr)) (List (PyStr × (PyStr × PyStr))) :=
  mergeLookups lookups

/-- Every ID carries a single value across the concatenated sources. -/
def agreeOn {V : Type} (ps : List (PyStr × V)) : Prop :=
  ∀ k v w, (k, v) ∈ ps → (k, w) ∈ ps → v = w

/-! ### Lookup-table loaders (`indexes.py`) -/

/-- `ValueError`s of `load_single_index_table`; each carries the enumerated
IDs (or sequences) of its message and whether the list was truncated. -/
inductive LoadError where
  | missingSeq (ids : List PyStr) (truncated : Bool)
  | dupId (ids : List PyStr) (truncated : Bool)
  | dupSeq (seqs : List PyStr) (truncated : Bool)
deriving DecidableEq

/-- `ValueError`s of `load_paired_index_table`. -/
inductive PairLoadError where
  | missingSeq (ids : List PyStr) (truncated : Bool)
  | dupId (ids : List PyStr) (truncated : Bool)
deriving DecidableEq

/-- Normalized, blank-ID-filtered rows of a single-index table. -/
def singleTableRows (rows : List (PyStr × Option PyStr)) :
    List (PyStr × Option PyStr) :=
  (rows.map fun r => (pyStrip r.1, normalize_seq r.2)).filter
    (fun r => 0 < r.1.length)

/-- Distinct retained IDs whose sequence normalized to absent. -/
def singleMissingIds (rows : List (PyStr × Option PyStr)) : List PyStr :=
  uniqueFirst (((singleTableRows rows).filter (fun r => r.2 = none)).map (·.1))

/-- Distinct retained IDs occurring more than once. -/
def singleDupIds (rows : List (PyStr × Option PyStr)) : List PyStr :=
  uniqueFirst (((singleTableRows rows).filter
    (fun r => 2 ≤ (singleTableRows rows).countP (fun r2 => r2.1 = r.1))).map (·.1))

/-- Distinct sequences occurring more than once among retained rows. -/
def singleDupSeqs (rows : List (PyStr × Option PyStr)) : List PyStr :=
  uniqueFirst (((singleTableRows rows).filter
    (fun r => 2 ≤ (singleTableRows rows).countP (fun r2 => r2.2 = r.2))).map
      (fun r => r.2.getD []))

/-- `indexes.load_single_index_table` after the file/column stage: rows are
`(raw id, raw sequence)`; strip IDs, drop blank IDs, normalize sequences,
then run the three failure checks in order. -/
def load_single_index_table (rows : List (PyStr × Option PyStr)) :
    Except LoadError (List (PyStr × Option PyStr)) :=
  if singleMissingIds rows ≠ [] then
    Except.error (LoadError.missingSeq ((singleMissingIds rows).take 20)
      (decide (20 < (singleMissingIds rows).length)))
  else if singleDupIds rows ≠ [] then
    Except.error (LoadError.dupId ((singleDupIds rows).take 20)
      (decide (20 < (singleDupIds rows).length)))
  else if singleDupSeqs rows ≠ [] then
    Except.error (LoadError.dupSeq ((singleDupSeqs rows).take 20)
      (decide (20 < (singleDupSeqs rows).length)))
  else Except.ok (singleTableRows rows)

/-- `indexes.build_single_lookup`. -/
def build_single_lookup (df : List (PyStr × Option PyStr)) : List (PyStr × PyStr) :=
  df.map fun r => (r.1, r.2.getD [])

/-- Normalized, blank-ID-filtered rows of a paired-index table. -/
def pairTableRows (rows : List (PyStr × Option PyStr × Option PyStr)) :
    List (PyStr × Option PyStr × Option PyStr) :=
  (rows.map fun r => (pyStrip r.1, normalize_seq r.2.1, normalize_seq r.2.2)).filter
    (fun r => 0 < r.1.length)

/-- Distinct retained pair IDs with either sequence absent. -/
def pairMissingIds (rows : List (PyStr × Option PyStr × Option PyStr)) : List PyStr :=
  uniqueFirst (((pairTableRows rows).filter
    (fun r => r.2.1 = none ∨ r.2.2 = none)).map (·.1))

/-- Distinct retained pair IDs occurring more than once. -/
def pairDupIds (rows : List (PyStr × Option PyStr × Option PyStr)) : List PyStr :=
  uniqueFirst (((pairTableRows rows).filter
    (fun r => 2 ≤ (pairTableRows rows).countP (fun r2 => r2.1 = r.1))).map (·.1))

/-- `indexes.load_paired_index_table`: rows are
`(raw pair id, raw i7 sequence, raw i5 sequence)`. -/
def load_paired_index_table (rows : List (PyStr × Option PyStr × Option PyStr)) :
    Except PairLoadError (List (PyStr × Option PyStr × Option PyStr)) :=
  if pairMissingIds rows ≠ [] then
    Except.error (PairLoadError.missingSeq ((pairMissingIds rows).take 20)
      (decide (20 < (pairMissingIds rows).length)))
  else if pairDupIds rows ≠ [] then
    Except.error (PairLoadError.dupId ((pairDupIds rows).take 10)
      (decide (10 < (pairDupIds rows).length)))
  else Except.ok (pairTableRows rows)

/-- `indexes.build_pair_lookup`. -/
def build_pair_lookup (df : List (PyStr × Option PyStr × Option PyStr)) :
    List (PyStr × (PyStr × PyStr)) :=
  df.map fun r => (r.1, (r.2.1.getD [], r.2.2.getD []))

/-! ### Schema and lane expansion (`io_normalize.py`) -/

/-- A digit `1`–`8`. -/
def laneDigit (c : Nat) : Bool := 49 ≤ c && c ≤ 56

/-- A lane separator: comma or whitespace (`[,\s]`). -/
def isLaneSep (c : Nat) : Bool := c = 44 || isPySpace c

mutual
/-- After a digit of the lane pattern: end of string or a separator run. -/
def laneFmtAfterDigit : PyStr → Bool
  | [] => true
  | c :: rest => isLaneSep c && laneFmtAfterSep rest

/-- Inside a separator run: more separators, or the next digit. -/
def laneFmtAfterSep : PyStr → Bool
  | [] => false
  | c :: rest => if isLaneSep c then laneFmtAfterSep rest else laneDigit c && laneFmtAfterDigit rest
end

/-- The lane-cell pattern `^[1-8](?:[,\s]+[1-8])*$`. -/
def laneFmt : PyStr → Bool
  | [] => false
  | c :: rest => laneDigit c && laneFmtAfterDigit rest

/-- One step of splitting on `[,\s]+` (processed right to left). -/
def splitSepStep (c : Nat) (st : List PyStr × PyStr) : List PyStr × PyStr :=
  if isLaneSep c then (if st.2 = [] then st else (st.2 :: st.1, [])) else (st.1, c :: st.2)

/-- `re.split(r"[,\s]+", s)` for separator-delimited strings (empty pieces
from consecutive separators do not occur after a `+` split). -/
def splitSep (l : PyStr) : List PyStr :=
  let st := l.foldr splitSepStep ([], [])
  if st.2 = [] then st.1 else st.2 :: st.1

/-- Python `int` on a decimal digit string. -/
def pyInt (t : PyStr) : Int :=
  t.foldl (fun acc c => acc * 10 + ((c : Int) - 48)) 0

/-- The three fatal `ValueError`s of `expand_lanes`. -/
inductive LaneError where
  | laneEmpty
  | laneFormatInvalid
  | laneDuplicateInCell
deriving DecidableEq

/-- `io_normalize.expand_lanes`: rows are `(lane cell, other fields)`; the
payload type `α` stands for all non-lane columns, copied verbatim by
`explode`. -/
def expand_lanes {α : Type} (rows : List (PyStr × α)) :
    Except LaneError (List (Int × α)) :=
  let s := rows.map (fun r => pyStrip r.1)
  if s.any (fun c => c = [] || pyLower c = strnan) then
    Except.error LaneError.laneEmpty
  else if s.any (fun c => !laneFmt c) then
    Except.error LaneError.laneFormatInvalid
  else
    let lanes := s.map splitSep
    -- the duplicate check runs after `explode`, but still aborts the call
    if lanes.any (fun xs => xs.length ≠ (uniqueFirst xs).length) then
      Except.error LaneError.laneDuplicateInCell
    else
      Except.ok (((rows.map (·.2)).zip lanes).flatMap
        (fun p => p.2.map (fun tok => (pyInt tok, p.1))))

/-! ### Sample rows and the index resolver (`resolve.py`) -/

/-- A normalized sample-sheet row (canonical columns of `config.py`;
`i7`/`i5` are the sequence columns, as in `COL_I7`/`COL_I5`). -/
structure Row where
  lane : Int
  sample_id : PyStr
  project_id : PyStr
  i7_id : PyStr
  i5_id : PyStr
  i7 : Option PyStr
  i5 : Option PyStr
deriving DecidableEq, Repr

/-- Python truthiness of an optional string (`None` and `""` are falsy). -/
def truthyS : Option PyStr → Bool
  | none => false
  | some s => !s.isEmpty

/-- In-loop ID cleanup of `resolve_indexes`: strip, then treat blank or
`"nan"` (case-insensitive) as missing (`""`). -/
def normIdStr (s : PyStr) : PyStr :=
  let v := pyStrip s
  if v = [] ∨ pyLower v = strnan then [] else v

/-- The i7 half of case 3 of `resolve_indexes` (resolve i7 if needed). -/
def resolveI7Step (i7_lookup : List (PyStr × PyStr)) (r1 : Row) (i7_id : PyStr)
    (lane : Option Int) (sid : Option PyStr) : Row × List Problem :=
  if !truthyS r1.i7 then
    if i7_id = [] then (r1, [⟨Level.error, "I7_MISSING", lane, sid⟩])
    else match lookupKV i7_lookup i7_id with
      | none => (r1, [⟨Level.error, "I7_ID_NOT_FOUND", lane, sid⟩])
      | some sq => ({ r1 with i7 := normalize_seq (some sq) }, [])
  else (r1, [])

/-- Case 3 of `resolve_indexes` (independent i7 and i5 resolution). -/
def independentCore (i7_lookup i5_lookup : List (PyStr × PyStr)) (r1 : Row)
    (i7_id i5_id : PyStr) (lane : Option Int) (sid : Option PyStr) :
    Row × List Problem :=
  let s7 := resolveI7Step i7_lookup r1 i7_id lane sid
  if !truthyS r1.i5 ∧ i5_id ≠ [] then
    match lookupKV i5_lookup i5_id with
    | none => (s7.1, s7.2 ++ [⟨Level.error, "I5_ID_NOT_FOUND", lane, sid⟩])
    | some sq => ({ s7.1 with i5 := normalize_seq (some sq) }, s7.2)
  else s7

/-- Case 3 of `resolve_indexes` together with the final i7 requirement
that closes the loop body. -/
def independentResolve (i7_lookup i5_lookup : List (PyStr × PyStr)) (r1 : Row)
    (i7_id i5_id : PyStr) (lane : Option Int) (sid : Option PyStr) :
    Row × List Problem :=
  let s5 := independentCore i7_lookup i5_lookup r1 i7_id i5_id lane sid
  if !truthyS s5.1.i7 then
    (s5.1, s5.2 ++ [⟨Level.error, "I7_SEQUENCE_NOT_RESOLVED", lane, sid⟩])
  else s5

/-- The body of `resolve_indexes` for one row: the pre-loop column
normalization, the three resolution cases, and the final i7 requirement.
Returns the updated row (before the final normalization pass) and the
problems recorded for this row. -/
def resolveRow (i7_lookup i5_lookup : List (PyStr × PyStr))
    (pair_lookup : Option (List (PyStr × (PyStr × PyStr)))) (r : Row) :
    Row × List Problem :=
  let n7 := normalize_seq r.i7
  let n5 := normalize_seq r.i5
  let r1 : Row :=
    { r with
      i7 := n7, i5 := n5,
      i7_id := pyStrip r.i7_id, i5_id := pyStrip r.i5_id }
  let lane := some r.lane
  let sid := some (pyStrip r.sample_id)
  let i7_id := normIdStr (pyStrip r.i7_id)
  let i5_id := normIdStr (pyStrip r.i5_id)
  -- Case 1: sequences already present
  if truthyS n7 && truthyS n5 then (r1, [])
  -- Case 2: paired lookup (10x style)
  else if i7_id ≠ [] ∧ i5_id ≠ [] ∧ i7_id = i5_id then
    match pair_lookup with
    | none => (r1, [⟨Level.error, "PAIR_TABLE_NOT_PROVIDED", lane, sid⟩])
    | some pl =>
      if pl = [] then (r1, [⟨Level.error, "PAIR_TABLE_NOT_PROVIDED", lane, sid⟩])
      else
        match lookupKV pl i7_id with
        | none => (r1, [⟨Level.error, "PAIR_ID_NOT_FOUND", lane, sid⟩])
        | some pq =>
          ({ r1 with i7 := normalize_seq (some pq.1), i5 := normalize_seq (some pq.2) }, [])
  -- Case 3: independent resolution, then the final i7 requirement
  else independentResolve i7_lookup i5_lookup r1 i7_id i5_id lane sid

/-- `resolve.resolve_indexes`: per-row resolution plus the final
normalization pass over the sequence columns. -/
def resolve_indexes (rows : List Row) (i7_lookup i5_lookup : List (PyStr × PyStr))
    (pair_lookup : Option (List (PyStr × (PyStr × PyStr)))) :
    List Row × List Problem :=
  let step := rows.map (resolveRow i7_lookup i5_lookup pair_lookup)
  (step.map (fun p => { p.1 with i7 := normalize_seq p.1.i7, i5 := normalize_seq p.1.i5 }),
   (step.map (·.2)).flatten)

/-! ### Lane validation (`validate.py`, `config.py`) -/

def DEFAULT_BARCODE_MISMATCHES : Int := 1

def HAMMING_WARN_TIGHTEN : Nat := 1

def HAMMING_WARN : Nat := 2

def HAMMING_OK_MIN : Nat := 3

/-- A character allowed by `SAMPLE_ID_ALLOWED` (`[A-Za-z0-9._-]`). -/
def sampleIdChar (c : Nat) : Bool :=
  (48 ≤ c && c ≤ 57) || (65 ≤ c && c ≤ 90) || (97 ≤ c && c ≤ 122) ||
    c = 46 || c = 95 || c = 45

/-- Full match of `^[A-Za-z0-9._-]+$`. -/
def sampleIdOk (s : PyStr) : Bool := !s.isEmpty && s.all sampleIdChar

/-- Lexicographic comparison of strings by character code (Python `sorted`). -/
def pyStrLe : PyStr → PyStr → Bool
  | [], _ => true
  | _ :: _, [] => false
  | a :: as, b :: bs => if a < b then true else if b < a then false else pyStrLe as bs

/-- Python `sorted` on strings. -/
def sortPyStr (l : List PyStr) : List PyStr :=
  List.insertionSort (fun a b => pyStrLe a b = true) l

/-- The sorted distinct lane keys, in the order `df.groupby(lane)` visits
them. -/
def sortedLanes (df : List Row) : List Int :=
  List.insertionSort (· ≤ ·) (uniqueFirst (df.map (·.lane)))

/-- `validate.validate_sample_ids`. -/
def validate_sample_ids (df : List Row) : List Problem :=
  let p1 := df.filterMap (fun r =>
    if sampleIdOk r.sample_id then none
    else some ⟨Level.error, "SAMPLE_ID_INVALID", some r.lane, some r.sample_id⟩)
  let p2 := (sortedLanes df).flatMap (fun lane =>
    let td := df.filter (fun r => r.lane = lane)
    let dups := uniqueFirst
      ((td.filter (fun r => 2 ≤ td.countP (fun r2 => r2.sample_id = r.sample_id))).map
        (·.sample_id))
    (sortPyStr dups).map (fun sid =>
      ⟨Level.error, "SAMPLE_ID_DUPLICATE_IN_LANE", some lane, some sid⟩))
  let p3 := (sortPyStr (uniqueFirst (df.map (·.sample_id)))).filterMap (fun sid =>
    let projs := uniqueFirst ((df.filter (fun r => r.sample_id = sid)).map (·.project_id))
    if 2 ≤ projs.length then
      some ⟨Level.error, "SAMPLE_ID_PROJECT_COLLISION", none, some sid⟩
    else none)
  p1 ++ p2 ++ p3

/-- `validate._trim_to_lane_min`. -/
def natMinList : List Nat → Nat
  | [] => 0
  | x :: xs => xs.foldl Nat.min x

def trim_to_lane_min (seqs : List PyStr) : List PyStr :=
  match seqs with
  | [] => []
  | _ :: _ => seqs.map (·.take (natMinList (seqs.map (·.length))))

/-- All pairs `(l i, l j)` with `i < j` (the double loops of
`validate.py`). -/
def allPairs {β : Type} : List β → List (β × β)
  | [] => []
  | x :: xs => xs.map (fun y => (x, y)) ++ allPairs xs

/-- Running minimum over optional candidates (`m = d if m is None else
min(m, d)`, skipping `None`). -/
def minOptFold (cands : List (Option Nat)) : Option Nat :=
  cands.foldl (fun m d =>
    match d with
    | none => m
    | some dv => match m with
      | none => some dv
      | some mv => some (Nat.min mv dv)) none

/-- `validate._min_pairwise_hamming`. -/
def min_pairwise_hamming (seqs : List PyStr) : Option Nat :=
  let uniq := sortPyStr (uniqueFirst seqs)
  if uniq.length < 2 then none
  else minOptFold ((allPairs uniq).map (fun p => hamming (some p.1) (some p.2)))

/-- `validate._min_hamming_between_sets`. -/
def min_hamming_between_sets (a b : List PyStr) : Option Nat :=
  if a = [] ∨ b = [] then none
  else minOptFold ((a.flatMap (fun x => b.map (fun y => (x, y)))).map
    (fun p => hamming (some p.1) (some p.2)))

/-- `validate._min_effective_pair_distance`. -/
def min_effective_pair_distance (i7_by_row i5_by_row : List (Option PyStr)) :
    Option Nat :=
  if i7_by_row.length < 2 then none
  else minOptFold ((allPairs (i7_by_row.zip i5_by_row)).map (fun pq =>
    match pq.1.1, pq.1.2, pq.2.1, pq.2.2 with
    | some a7, some a5, some b7, some b5 =>
      match hamming (some a7) (some b7), hamming (some a5) (some b5) with
      | some d7, some d5 => some (Nat.max d7 d5)
      | _, _ => none
    | _, _, _, _ => none))

/-- The distance-decision WARN codes of `validate_indexes_per_lane`. -/
def distanceWarnCodes : List String :=
  ["MIXED_LANE_I7_TOO_SIMILAR_HAMMING_1", "MIXED_LANE_I7_SIMILAR_HAMMING_2",
   "MIXED_LANE_I7_TOO_SIMILAR",
   "DUAL_LANE_PAIR_TOO_SIMILAR_HAMMING_1", "DUAL_LANE_PAIR_SIMILAR_HAMMING_2",
   "SINGLE_LANE_I7_TOO_SIMILAR_HAMMING_1", "SINGLE_LANE_I7_SIMILAR_HAMMING_2"]

/-- The lane's i7 sequences (`normalize_seq(x)` per row; all present when
the `I7_MISSING` guard passed). -/
def laneI7Seqs (td : List Row) : List PyStr :=
  td.map (fun r => (normalize_seq r.i7).getD [])

/-- `min_len_i7`. -/
def laneMinLen7 (td : List Row) : Nat :=
  natMinList ((laneI7Seqs td).map (·.length))

/-- `i7_trim_by_row`. -/
def laneI7Trim (td : List Row) : List PyStr :=
  (laneI7Seqs td).map (·.take (laneMinLen7 td))

/-- The lane's optional i5 sequences. -/
def laneI5Opts (td : List Row) : List (Option PyStr) :=
  td.map (fun r => normalize_seq r.i5)

/-- `min_len_i5` (0 when no row has an i5). -/
def laneMinLen5 (td : List Row) : Nat :=
  match (laneI5Opts td).filterMap id with
  | [] => 0
  | l@(_ :: _) => natMinList (l.map (·.length))

/-- `i5_trim_by_row`. -/
def laneI5Trim (td : List Row) : List (Option PyStr) :=
  (laneI5Opts td).map (Option.map (·.take (laneMinLen5 td)))

/-- Rows as `(trimmed i7, trimmed optional i5)`. -/
def laneRowsT (td : List Row) : List (PyStr × Option PyStr) :=
  (laneI7Trim td).zip (laneI5Trim td)

/-- The lane's dual-index rows. -/
def laneDualRows (td : List Row) : List (PyStr × Option PyStr) :=
  (laneRowsT td).filter (fun p => p.2.isSome)

/-- Trimmed i7 values of the single-index rows. -/
def laneSingles7 (td : List Row) : List PyStr :=
  ((laneRowsT td).filter (fun p => p.2.isNone)).map (·.1)

def laneHasSingle (td : List Row) : Bool := !(laneSingles7 td).isEmpty

def laneHasDual (td : List Row) : Bool := !((laneDualRows td).map (·.1)).isEmpty

/-- `"i7+i5"` keys of the dual rows. -/
def lanePairKeys (td : List Row) : List PyStr :=
  (laneRowsT td).filterMap (fun p => p.2.map (fun s5 => p.1 ++ [43] ++ s5))

/-- Dual-index pair uniqueness problems (after trimming, among dual rows). -/
def laneDupPairProbs (td : List Row) (lane : Int) : List Problem :=
  if laneHasDual td then
    (sortPyStr (uniqueFirst ((lanePairKeys td).filter
      (fun k => 2 ≤ (lanePairKeys td).count k)))).map
      (fun _ => (⟨Level.error, "INDEX_DUPLICATE_IN_LANE", some lane, none⟩ : Problem))
  else []

/-- Single-index i7 exclusivity problems (after trimming). -/
def laneSingleDupProbs (td : List Row) (lane : Int) : List Problem :=
  if laneHasSingle td then
    (laneRowsT td).filterMap (fun p =>
      if p.2.isNone ∧ 2 ≤ (laneI7Trim td).count p.1 then
        some (⟨Level.error, "SINGLE_I7_DUPLICATE_IN_LANE", some lane, none⟩ : Problem)
      else none)
  else []

/-- Mismatch-policy decision of the lane (problems, tolerance). -/
def laneDecision (td : List Row) (lane : Int) : List Problem × Int :=
  if laneHasSingle td && laneHasDual td then
    match min_hamming_between_sets (laneSingles7 td) ((laneDualRows td).map (·.1)) with
    | none => ([], DEFAULT_BARCODE_MISMATCHES)
    | some d =>
      if d = HAMMING_WARN_TIGHTEN then
        ([⟨Level.warn, "MIXED_LANE_I7_TOO_SIMILAR_HAMMING_1", some lane, none⟩], 0)
      else if d = HAMMING_WARN then
        ([⟨Level.warn, "MIXED_LANE_I7_SIMILAR_HAMMING_2", some lane, none⟩], 0)
      else if d < HAMMING_OK_MIN then
        ([⟨Level.warn, "MIXED_LANE_I7_TOO_SIMILAR", some lane, none⟩], 0)
      else ([], DEFAULT_BARCODE_MISMATCHES)
  else if laneHasDual td && !laneHasSingle td then
    match min_effective_pair_distance ((laneDualRows td).map (fun p => some p.1))
        ((laneDualRows td).map (·.2)) with
    | none => ([], DEFAULT_BARCODE_MISMATCHES)
    | some d =>
      if d = HAMMING_WARN_TIGHTEN then
        ([⟨Level.warn, "DUAL_LANE_PAIR_TOO_SIMILAR_HAMMING_1", some lane, none⟩], 0)
      else if d = HAMMING_WARN then
        ([⟨Level.warn, "DUAL_LANE_PAIR_SIMILAR_HAMMING_2", some lane, none⟩], 0)
      else ([], DEFAULT_BARCODE_MISMATCHES)
  else if laneHasSingle td && !laneHasDual td then
    match min_pairwise_hamming (trim_to_lane_min (laneI7Trim td)) with
    | none => ([], DEFAULT_BARCODE_MISMATCHES)
    | some d =>
      if d = HAMMING_WARN_TIGHTEN then
        ([⟨Level.warn, "SINGLE_LANE_I7_TOO_SIMILAR_HAMMING_1", some lane, none⟩], 0)
      else if d = HAMMING_WARN then
        ([⟨Level.warn, "SINGLE_LANE_I7_SIMILAR_HAMMING_2", some lane, none⟩], 0)
      else ([], DEFAULT_BARCODE_MISMATCHES)
  else ([], DEFAULT_BARCODE_MISMATCHES)

/-- The loop body of `validate_indexes_per_lane` for one lane group:
problems of the lane and its mismatch entry. -/
def processLane (td : List Row) (lane : Int) : List Problem × Int :=
  if (td.map (fun r => normalize_seq r.i7)).any (·.isNone) then
    ([⟨Level.error, "I7_MISSING", some lane, none⟩], DEFAULT_BARCODE_MISMATCHES)
  else
    (laneDupPairProbs td lane ++ laneSingleDupProbs td lane ++ (laneDecision td lane).1,
     (laneDecision td lane).2)

/-- `validate.validate_indexes_per_lane`: iterate the sorted lane groups;
every lane gets a mismatch entry (default first), problems accumulate. -/
def validate_indexes_per_lane (df : List Row) : List Problem × List (Int × Int) :=
  let results := (sortedLanes df).map
    (fun l => (l, processLane (df.filter (fun r => r.lane = l)) l))
  ((results.map (fun r => r.2.1)).flatten, results.map (fun r => (r.1, r.2.2)))

/-- `validate.validate_all`. -/
def validate_all (df : List Row) : List Problem × List (Int × Int) :=
  let p2 := validate_indexes_per_lane df
  (validate_sample_ids df ++ p2.1, p2.2)

/-! ### Run outcome (`context.RunContext.run`, steps 6–7) -/

structure RunOutcome where
  exitCode : Int
  wroteOutput : Bool
deriving DecidableEq, Repr

/-- `any(p.level == "ERROR" for p in self.problems)`. -/
def hasErrors (ps : List Problem) : Bool :=
  ps.any (fun p => p.level = Level.error)

/-- Steps 6–7 of `RunContext.run`: exit 2 and no output on errors, else
exit 0 and write unless `dry_run`. -/
def runDecision (problems : List Problem) (dry_run : Bool) : RunOutcome :=
  if hasErrors problems then ⟨2, false⟩ else ⟨0, !dry_run⟩

/-- Steps 4–7 of `RunContext.run` after the fatal load stages: resolve,
validate, accumulate problems, decide the outcome. -/
def run_core (rows : List Row) (i7_lookup i5_lookup : List (PyStr × PyStr))
    (pair_lookup : Option (List (PyStr × (PyStr × PyStr)))) (dry_run : Bool) :
    RunOutcome × List Problem :=
  let res := resolve_indexes rows i7_lookup i5_lookup pair_lookup
  let vs := validate_all res.1
  let problems := res.2 ++ vs.1
  (runDecision problems dry_run, problems)

/-! ### Further helper lemmas -/

theorem truthyS_some_of_ne_nil (a : PyStr) (h : a ≠ []) : truthyS (some a) = true := by
  cases a with
  | nil => exact absurd rfl h
  | cons c t => rfl

theorem dropWhile_append_of_all {α : Type} (p : α → Bool) (l1 l2 : List α)
    (h : ∀ c ∈ l1, p c = true) : (l1 ++ l2).dropWhile p = l2.dropWhile p := by
  induction l1 with
  | nil => rfl
  | cons a t ih =>
    rw [List.cons_append, List.dropWhile_cons, if_pos (h a (List.mem_cons_self a t))]
    exact ih (fun c hc => h c (List.mem_cons_of_mem a hc))

theorem dropWhile_eq_nil_of_all {α : Type} (p : α → Bool) (l : List α)
    (h : ∀ c ∈ l, p c = true) : l.dropWhile p = [] := by
  have := dropWhile_append_of_all p l [] h
  simpa using this

theorem pyStrip_surrounding_space (t ws1 ws2 : PyStr)
    (h1 : ∀ c ∈ ws1, isPySpace c = true) (h2 : ∀ c ∈ ws2, isPySpace c = true)
    (ht : ∀ c ∈ t, isPySpace c = false) :
    pyStrip (ws1 ++ t ++ ws2) = t := by
  unfold pyStrip
  rw [List.append_assoc, dropWhile_append_of_all _ _ _ h1]
  cases t with
  | nil =>
    rw [List.nil_append, dropWhile_eq_nil_of_all _ _ h2]
    rfl
  | cons c0 t0 =>
    rw [List.cons_append, List.dropWhile_cons,
      if_neg (by rw [ht c0 (List.mem_cons_self c0 t0)]; simp)]
    rw [← List.cons_append, List.reverse_append,
      dropWhile_append_of_all _ _ _ (fun c hc => h2 c (List.mem_reverse.mp hc))]
    cases htr : (c0 :: t0).reverse with
    | nil => simp at htr
    | cons d ds =>
      rw [List.dropWhile_cons, if_neg (by
        have hd : d ∈ (c0 :: t0).reverse := by rw [htr]; exact List.mem_cons_self d ds
        rw [ht d (List.mem_reverse.mp hd)]; simp)]
      rw [← htr, List.reverse_reverse]

/-! ### Claim C8: `normalize_seq` is idempotent and maps missing tokens to
absent -/

/-- C8: the sequence normalizer (a pure function) is idempotent on
non-absent results; null input and every missing-token variant (empty,
`nan`, `NA`, `None` in any letter case, with surrounding whitespace)
normalize to absent. -/
theorem normalize_seq_idempotent_and_missing_tokens :
    (∀ s r : PyStr, normalize_seq (some s) = some r → normalize_seq (some r) = some r)
    ∧ normalize_seq none = none
    ∧ (∀ t ws1 ws2 : PyStr, (∀ c ∈ ws1, isPySpace c = true) →
        (∀ c ∈ ws2, isPySpace c = true) →
        (pyUpper t = [] ∨ pyUpper t = strNAN ∨ pyUpper t = strNA ∨ pyUpper t = strNONE) →
        normalize_seq (some (ws1 ++ t ++ ws2)) = none) := by
  refine ⟨normalize_seq_idem, rfl, ?_⟩
  intro t ws1 ws2 h1 h2 ht
  have htok : ∀ c ∈ t, isPySpace c = false := by
    intro c hc
    rw [← isPySpace_pyUpperChar]
    generalize hg : pyUpperChar c = x
    have hu : x ∈ pyUpper t := hg ▸ List.mem_map_of_mem pyUpperChar hc
    rcases ht with h | h | h | h <;> rw [h] at hu
    · exact absurd hu (List.not_mem_nil x)
    · have hd : x = 78 ∨ x = 65 ∨ x = 78 := by simpa [strNAN] using hu
      rcases hd with rfl | rfl | rfl <;> rfl
    · have hd : x = 78 ∨ x = 65 := by simpa [strNA] using hu
      rcases hd with rfl | rfl <;> rfl
    · have hd : x = 78 ∨ x = 79 ∨ x = 78 ∨ x = 69 := by simpa [strNONE] using hu
      rcases hd with rfl | rfl | rfl | rfl <;> rfl
  rw [normalize_seq_some, pyStrip_surrounding_space t ws1 ws2 h1 h2 htok]
  have hrem : removeSpaces (pyUpper t) = pyUpper t := by
    rcases ht with h | h | h | h <;> rw [h] <;> rfl
  rw [hrem, if_pos ht]

/-- C8 witness: concrete instances of the three conjuncts. -/
theorem normalize_seq_idempotent_and_missing_tokens_witness :
    normalize_seq (some [65, 67, 71, 84]) = some [65, 67, 71, 84]
    ∧ normalize_seq none = none
    ∧ normalize_seq (some ([32] ++ [110, 97, 110] ++ [9])) = none := by
  refine ⟨?_, normalize_seq_idempotent_and_missing_tokens.2.1, ?_⟩
  · exact normalize_seq_idempotent_and_missing_tokens.1
      [32, 97, 99, 32, 103, 116] [65, 67, 71, 84] (by decide)
  · exact normalize_seq_idempotent_and_missing_tokens.2.2
      [110, 97, 110] [32] [9] (by decide) (by decide) (by decide)

/-! ### Claim C4: output is written iff there is no ERROR problem -/

/-- C4: the run writes output exactly when no ERROR-level problem was
accumulated by resolution and validation (and the run is not a dry run);
any ERROR forces exit code 2 with no output, and WARN/INFO problems alone
never block the write. -/
theorem run_core_write_iff_no_errors (rows : List Row)
    (lk7 lk5 : List (PyStr × PyStr))
    (pl : Option (List (PyStr × (PyStr × PyStr)))) (dry : Bool) :
    ((run_core rows lk7 lk5 pl dry).1.wroteOutput = true ↔
      hasErrors (run_core rows lk7 lk5 pl dry).2 = false ∧ dry = false)
    ∧ (hasErrors (run_core rows lk7 lk5 pl dry).2 = true →
        (run_core rows lk7 lk5 pl dry).1 = ⟨2, false⟩)
    ∧ (hasErrors (run_core rows lk7 lk5 pl dry).2 = false →
        (run_core rows lk7 lk5 pl dry).1 = ⟨0, !dry⟩) := by
  have key : (run_core rows lk7 lk5 pl dry).1 =
      runDecision ((run_core rows lk7 lk5 pl dry).2) dry := rfl
  rw [key]
  unfold runDecision
  cases h : hasErrors (run_core rows lk7 lk5 pl dry).2 with
  | false =>
    rw [if_neg (by simp)]
    refine ⟨?_, by simp, fun _ => rfl⟩
    cases dry <;> simp
  | true =>
    rw [if_pos rfl]
    exact ⟨by simp, fun _ => rfl, by simp⟩

/-! ### Claim C7: rows with both sequences present are untouched -/

/-- C7: a row whose i7 and i5 sequences are both non-absent after
normalization keeps both sequences as-is; no lookup is consulted and no
problem is emitted, whatever the lookup contents and IDs. -/
theorem resolve_keeps_present_sequences (lk7 lk5 lk7' lk5' : List (PyStr × PyStr))
    (pl pl' : Option (List (PyStr × (PyStr × PyStr)))) (r : Row) (a b : PyStr)
    (h7 : normalize_seq r.i7 = some a) (h5 : normalize_seq r.i5 = some b) :
    resolveRow lk7 lk5 pl r =
      ({ r with
          i7 := some a, i5 := some b,
          i7_id := pyStrip r.i7_id, i5_id := pyStrip r.i5_id }, [])
    ∧ resolveRow lk7 lk5 pl r = resolveRow lk7' lk5' pl' r
    ∧ resolve_indexes [r] lk7 lk5 pl =
        ([{ r with
           i7 := some a, i5 := some b,
           i7_id := pyStrip r.i7_id, i5_id := pyStrip r.i5_id }], []) := by
  have ha : a ≠ [] := normalize_seq_some_ne_nil _ _ h7
  have hb : b ≠ [] := normalize_seq_some_ne_nil _ _ h5
  have hia : normalize_seq (some a) = some a := by
    cases hc : r.i7 with
    | none => rw [hc] at h7; exact absurd h7 (by simp [normalize_seq])
    | some s7 => rw [hc] at h7; exact normalize_seq_idem s7 a h7
  have hib : normalize_seq (some b) = some b := by
    cases hc : r.i5 with
    | none => rw [hc] at h5; exact absurd h5 (by simp [normalize_seq])
    | some s5 => rw [hc] at h5; exact normalize_seq_idem s5 b h5
  have e1 : resolveRow lk7 lk5 pl r =
      ({ r with
          i7 := some a, i5 := some b,
          i7_id := pyStrip r.i7_id, i5_id := pyStrip r.i5_id }, []) := by
    simp only [resolveRow, h7, h5, truthyS_some_of_ne_nil a ha,
      truthyS_some_of_ne_nil b hb, Bool.and_self, if_true]
  have e2 : resolveRow lk7' lk5' pl' r =
      ({ r with
          i7 := some a, i5 := some b,
          i7_id := pyStrip r.i7_id, i5_id := pyStrip r.i5_id }, []) := by
    simp only [resolveRow, h7, h5, truthyS_some_of_ne_nil a ha,
      truthyS_some_of_ne_nil b hb, Bool.and_self, if_true]
  refine ⟨e1, e2 ▸ e1, ?_⟩
  simp only [resolve_indexes, List.map_cons, List.map_nil, e1, hia, hib,
    List.flatten]
  rfl

/-! ### Claims C2/C3: paired-kit resolution and the final i7 requirement -/

theorem resolveRow_eq_independent (lk7 lk5 : List (PyStr × PyStr))
    (pl : Option (List (PyStr × (PyStr × PyStr)))) (r : Row)
    (hnb : (truthyS (normalize_seq r.i7) && truthyS (normalize_seq r.i5)) = false)
    (hnp : ¬(normIdStr (pyStrip r.i7_id) ≠ [] ∧ normIdStr (pyStrip r.i5_id) ≠ [] ∧
        normIdStr (pyStrip r.i7_id) = normIdStr (pyStrip r.i5_id))) :
    resolveRow lk7 lk5 pl r = independentResolve lk7 lk5
      { r with
        i7 := normalize_seq r.i7, i5 := normalize_seq r.i5,
        i7_id := pyStrip r.i7_id, i5_id := pyStrip r.i5_id }
      (normIdStr (pyStrip r.i7_id)) (normIdStr (pyStrip r.i5_id))
      (some r.lane) (some (pyStrip r.sample_id)) := by
  simp only [resolveRow, hnb, Bool.false_eq_true, if_false, if_neg hnp]

theorem resolveI7Step_codes (lk7 : List (PyStr × PyStr)) (r1 : Row)
    (i7_id : PyStr) (lane : Option Int) (sid : Option PyStr) :
    ∀ p ∈ (resolveI7Step lk7 r1 i7_id lane sid).2,
      p.code = "I7_MISSING" ∨ p.code = "I7_ID_NOT_FOUND" := by
  intro p hp
  unfold resolveI7Step at hp
  by_cases h7 : truthyS r1.i7 = true
  · rw [if_neg (by simp [h7])] at hp
    exact absurd hp (by simp)
  · simp only [Bool.not_eq_true] at h7
    rw [if_pos (by simp [h7])] at hp
    by_cases hid : i7_id = []
    · rw [if_pos hid] at hp
      simp only [List.mem_singleton] at hp
      simp [hp]
    · rw [if_neg hid] at hp
      cases hk : lookupKV lk7 i7_id with
      | none =>
        rw [hk] at hp
        simp only [List.mem_singleton] at hp
        simp [hp]
      | some sq =>
        rw [hk] at hp
        exact absurd hp (by simp)

theorem resolveI7Step_resolved_no_probs (lk7 : List (PyStr × PyStr)) (r1 : Row)
    (i7_id : PyStr) (lane : Option Int) (sid : Option PyStr)
    (ht : truthyS (resolveI7Step lk7 r1 i7_id lane sid).1.i7 = true) :
    (resolveI7Step lk7 r1 i7_id lane sid).2 = [] := by
  unfold resolveI7Step at ht ⊢
  by_cases h7 : truthyS r1.i7 = true
  · rw [if_neg (by simp [h7])]
  · simp only [Bool.not_eq_true] at h7
    rw [if_pos (by simp [h7])] at ht ⊢
    by_cases hid : i7_id = []
    · rw [if_pos hid] at ht
      simp only at ht
      rw [ht] at h7
      simp at h7
    · rw [if_neg hid] at ht ⊢
      cases hk : lookupKV lk7 i7_id with
      | none =>
        rw [hk] at ht
        simp only at ht
        rw [ht] at h7
        simp at h7
      | some sq => rfl

theorem independentCore_codes (lk7 lk5 : List (PyStr × PyStr)) (r1 : Row)
    (i7_id i5_id : PyStr) (lane : Option Int) (sid : Option PyStr) :
    ∀ p ∈ (independentCore lk7 lk5 r1 i7_id i5_id lane sid).2,
      p.code = "I7_MISSING" ∨ p.code = "I7_ID_NOT_FOUND" ∨ p.code = "I5_ID_NOT_FOUND" := by
  intro p hp
  have hstep := resolveI7Step_codes lk7 r1 i7_id lane sid
  unfold independentCore at hp
  by_cases h5 : (!truthyS r1.i5) = true ∧ i5_id ≠ []
  · rw [if_pos h5] at hp
    cases hl : lookupKV lk5 i5_id with
    | none =>
      rw [hl] at hp
      simp only [List.mem_append, List.mem_singleton] at hp
      rcases hp with hp | hp
      · rcases hstep p hp with h | h
        · exact Or.inl h
        · exact Or.inr (Or.inl h)
      · simp [hp]
    | some sq =>
      rw [hl] at hp
      simp only at hp
      rcases hstep p hp with h | h
      · exact Or.inl h
      · exact Or.inr (Or.inl h)
  · rw [if_neg h5] at hp
    rcases hstep p hp with h | h
    · exact Or.inl h
    · exact Or.inr (Or.inl h)

theorem independentCore_i5_skip (lk7 lk5 : List (PyStr × PyStr)) (r1 : Row)
    (i7_id : PyStr) (lane : Option Int) (sid : Option PyStr)
    (ht : truthyS (independentCore lk7 lk5 r1 i7_id [] lane sid).1.i7 = true) :
    (independentCore lk7 lk5 r1 i7_id [] lane sid).2 = [] := by
  have he : independentCore lk7 lk5 r1 i7_id [] lane sid =
      resolveI7Step lk7 r1 i7_id lane sid := by
    unfold independentCore
    rw [if_neg (by simp)]
  rw [he] at ht ⊢
  exact resolveI7Step_resolved_no_probs lk7 r1 i7_id lane sid ht

/-- C3 (amended): for every row not settled by the already-present rule
and not entering the paired-kit rule, the final requirement fires exactly
when i7 is still absent after independent resolution (emitting
`I7_SEQUENCE_NOT_RESOLVED`), and an absent i5 with an absent i5 ID on its
own yields no problem. Rows that terminate inside the paired-kit rule skip
this final check. -/
theorem resolve_final_i7_requirement (lk7 lk5 : List (PyStr × PyStr))
    (pl : Option (List (PyStr × (PyStr × PyStr)))) (r : Row)
    (hnb : (truthyS (normalize_seq r.i7) && truthyS (normalize_seq r.i5)) = false)
    (hnp : ¬(normIdStr (pyStrip r.i7_id) ≠ [] ∧ normIdStr (pyStrip r.i5_id) ≠ [] ∧
        normIdStr (pyStrip r.i7_id) = normIdStr (pyStrip r.i5_id))) :
    (truthyS (resolveRow lk7 lk5 pl r).1.i7 = false →
      ⟨Level.error, "I7_SEQUENCE_NOT_RESOLVED", some r.lane, some (pyStrip r.sample_id)⟩ ∈
        (resolveRow lk7 lk5 pl r).2)
    ∧ (truthyS (resolveRow lk7 lk5 pl r).1.i7 = true →
      ∀ p ∈ (resolveRow lk7 lk5 pl r).2, p.code ≠ "I7_SEQUENCE_NOT_RESOLVED")
    ∧ (normIdStr (pyStrip r.i5_id) = [] → truthyS (resolveRow lk7 lk5 pl r).1.i7 = true →
      (resolveRow lk7 lk5 pl r).2 = []) := by
  rw [resolveRow_eq_independent lk7 lk5 pl r hnb hnp]
  set r1 : Row :=
    { r with
      i7 := normalize_seq r.i7, i5 := normalize_seq r.i5,
      i7_id := pyStrip r.i7_id, i5_id := pyStrip r.i5_id } with hr1
  set i7id := normIdStr (pyStrip r.i7_id) with hi7id
  set i5id := normIdStr (pyStrip r.i5_id) with hi5id
  set lane := (some r.lane : Option Int) with hlane
  set sid := (some (pyStrip r.sample_id) : Option PyStr) with hsid
  rcases hc : independentCore lk7 lk5 r1 i7id i5id lane sid with ⟨r2, ps⟩
  have hcodes := independentCore_codes lk7 lk5 r1 i7id i5id lane sid
  rw [hc] at hcodes
  refine ⟨?_, ?_, ?_⟩
  · intro hf
    unfold independentResolve at hf ⊢
    rw [hc] at hf ⊢
    by_cases ht : truthyS r2.i7 = true
    · rw [if_neg (by simp [ht])] at hf
      simp at hf
      rw [hf] at ht
      simp at ht
    · simp only [Bool.not_eq_true] at ht
      rw [if_pos (by simp [ht])]
      simp
  · intro htr p hp
    unfold independentResolve at htr hp
    rw [hc] at htr hp
    by_cases ht : truthyS r2.i7 = true
    · rw [if_neg (by simp [ht])] at hp
      rcases hcodes p hp with h | h | h <;> simp [h]
    · simp only [Bool.not_eq_true] at ht
      rw [if_pos (by simp [ht])] at htr
      simp only at htr
      rw [htr] at ht
      simp at ht
  · intro h5 htr
    unfold independentResolve at htr ⊢
    rw [h5] at hc htr ⊢
    rw [hc] at htr ⊢
    by_cases ht : truthyS r2.i7 = true
    · rw [if_neg (by simp [ht])]
      simp only
      have hsk := independentCore_i5_skip lk7 lk5 r1 i7id lane sid (by rw [hc]; exact ht)
      rw [hc] at hsk
      exact hsk
    · simp only [Bool.not_eq_true] at ht
      rw [if_pos (by simp [ht])] at htr
      simp only at htr
      rw [htr] at ht
      simp at ht

/-- C2 (amended): for a row whose sequences are not both present and whose
cleaned i7/i5 IDs are equal and non-absent, a missing or *empty* pair
table yields `PAIR_TABLE_NOT_PROVIDED`; with a non-empty pair table, an
unknown ID yields `PAIR_ID_NOT_FOUND`, and a found ID sets both sequences
from the normalized pair entry with no problem and no use of the
independent lookups. -/
theorem resolve_paired_kit_lookup (lk7 lk5 lk7' lk5' : List (PyStr × PyStr))
    (pl : Option (List (PyStr × (PyStr × PyStr)))) (r : Row)
    (hnb : (truthyS (normalize_seq r.i7) && truthyS (normalize_seq r.i5)) = false)
    (hid : normIdStr (pyStrip r.i7_id) ≠ [])
    (heq : normIdStr (pyStrip r.i7_id) = normIdStr (pyStrip r.i5_id)) :
    ((pl = none ∨ pl = some []) →
      resolveRow lk7 lk5 pl r =
        ({ r with
           i7 := normalize_seq r.i7, i5 := normalize_seq r.i5,
           i7_id := pyStrip r.i7_id, i5_id := pyStrip r.i5_id },
         [⟨Level.error, "PAIR_TABLE_NOT_PROVIDED", some r.lane, some (pyStrip r.sample_id)⟩]))
    ∧ (∀ tbl, pl = some tbl → tbl ≠ [] →
        lookupKV tbl (normIdStr (pyStrip r.i7_id)) = none →
        resolveRow lk7 lk5 pl r =
          ({ r with
             i7 := normalize_seq r.i7, i5 := normalize_seq r.i5,
             i7_id := pyStrip r.i7_id, i5_id := pyStrip r.i5_id },
           [⟨Level.error, "PAIR_ID_NOT_FOUND", some r.lane, some (pyStrip r.sample_id)⟩]))
    ∧ (∀ tbl s7 s5, pl = some tbl → tbl ≠ [] →
        lookupKV tbl (normIdStr (pyStrip r.i7_id)) = some (s7, s5) →
        resolveRow lk7 lk5 pl r =
          ({ r with
             i7 := normalize_seq (some s7), i5 := normalize_seq (some s5),
             i7_id := pyStrip r.i7_id, i5_id := pyStrip r.i5_id }, [])
        ∧ resolveRow lk7 lk5 pl r = resolveRow lk7' lk5' pl r) := by
  have hcond : normIdStr (pyStrip r.i7_id) ≠ [] ∧ normIdStr (pyStrip r.i5_id) ≠ [] ∧
      normIdStr (pyStrip r.i7_id) = normIdStr (pyStrip r.i5_id) :=
    ⟨hid, heq ▸ hid, heq⟩
  have hbody : ∀ lkA lkB : List (PyStr × PyStr), resolveRow lkA lkB pl r =
      (match pl with
       | none =>
         ({ r with
            i7 := normalize_seq r.i7, i5 := normalize_seq r.i5,
            i7_id := pyStrip r.i7_id, i5_id := pyStrip r.i5_id },
          [⟨Level.error, "PAIR_TABLE_NOT_PROVIDED", some r.lane, some (pyStrip r.sample_id)⟩])
       | some tbl =>
         if tbl = [] then
           ({ r with
              i7 := normalize_seq r.i7, i5 := normalize_seq r.i5,
              i7_id := pyStrip r.i7_id, i5_id := pyStrip r.i5_id },
            [⟨Level.error, "PAIR_TABLE_NOT_PROVIDED", some r.lane, some (pyStrip r.sample_id)⟩])
         else
           match lookupKV tbl (normIdStr (pyStrip r.i7_id)) with
           | none =>
             ({ r with
                i7 := normalize_seq r.i7, i5 := normalize_seq r.i5,
                i7_id := pyStrip r.i7_id, i5_id := pyStrip r.i5_id },
              [⟨Level.error, "PAIR_ID_NOT_FOUND", some r.lane, some (pyStrip r.sample_id)⟩])
           | some pq =>
             ({ r with
                i7 := normalize_seq (some pq.1), i5 := normalize_seq (some pq.2),
                i7_id := pyStrip r.i7_id, i5_id := pyStrip r.i5_id }, [])) := by
    intro lkA lkB
    simp only [resolveRow, hnb, Bool.false_eq_true, if_false, if_pos hcond]
  refine ⟨?_, ?_, ?_⟩
  · intro hpl
    rcases hpl with rfl | rfl
    · rw [hbody]
    · rw [hbody lk7 lk5]
      exact if_pos rfl
  · intro tbl hpl hne hlk
    subst hpl
    rw [hbody lk7 lk5]
    simp only [if_neg hne, hlk]
  · intro tbl s7 s5 hpl hne hlk
    subst hpl
    constructor
    · rw [hbody lk7 lk5]
      simp only [if_neg hne, hlk]
    · rw [hbody lk7 lk5, hbody lk7' lk5']

/-- C2 witness: a concrete row with equal paired IDs and an empty supplied
pair table reports `PAIR_TABLE_NOT_PROVIDED`. -/
theorem resolve_paired_kit_lookup_witness :
    resolveRow [] [] (some []) ⟨1, [83], [80], [65], [65], none, none⟩ =
      (⟨1, [83], [80], [65], [65], none, none⟩,
       [⟨Level.error, "PAIR_TABLE_NOT_PROVIDED", some 1, some [83]⟩]) :=
  (resolve_paired_kit_lookup [] [] [] [] (some [])
    ⟨1, [83], [80], [65], [65], none, none⟩
    (by decide) (by decide) (by decide)).1 (Or.inr rfl)

/-- C2 counterexample: the pair table is supplied (just empty) and the ID
is not one of its keys, yet the code reports `PAIR_TABLE_NOT_PROVIDED`
rather than the `PAIR_ID_NOT_FOUND` the claim assigns to that situation. -/
theorem resolve_paired_kit_lookup_counterexample :
    (resolveRow [] [] (some []) ⟨2, [83], [80], [65], [65], none, none⟩).2 =
      [⟨Level.error, "PAIR_TABLE_NOT_PROVIDED", some 2, some [83]⟩]
    ∧ lookupKV ([] : List (PyStr × (PyStr × PyStr))) (normIdStr (pyStrip [65])) = none
    ∧ ∀ p ∈ (resolveRow [] [] (some []) ⟨2, [83], [80], [65], [65], none, none⟩).2,
        p.code ≠ "PAIR_ID_NOT_FOUND" := by
  refine ⟨rfl, rfl, ?_⟩
  intro p hp
  simp only [show (resolveRow [] [] (some []) ⟨2, [83], [80], [65], [65], none, none⟩).2 =
    [⟨Level.error, "PAIR_TABLE_NOT_PROVIDED", some 2, some [83]⟩] from rfl,
    List.mem_singleton] at hp
  subst hp
  decide

/-- C3 witness: a row with an unknown i7 ID and no i5 gets the
`I7_SEQUENCE_NOT_RESOLVED` problem from the final requirement. -/
theorem resolve_final_i7_requirement_witness :
    (⟨Level.error, "I7_SEQUENCE_NOT_RESOLVED", some 1, some [83]⟩ : Problem) ∈
      (resolveRow [] [] none ⟨1, [83], [80], [88], [], none, none⟩).2 :=
  (resolve_final_i7_requirement [] [] none ⟨1, [83], [80], [88], [], none, none⟩
    (by decide) (by decide)).1 (by decide)

/-- C3 counterexample: a row that fails inside the paired-kit rule
(`PAIR_ID_NOT_FOUND`) ends with an absent i7 but never receives the
`I7_SEQUENCE_NOT_RESOLVED` problem, so the final-requirement check does
not cover every row with an unresolved i7. -/
theorem resolve_final_i7_requirement_counterexample :
    (resolveRow [] [] (some [([89], ([65], [67]))])
        ⟨1, [83], [80], [88], [88], none, none⟩).2 =
      [⟨Level.error, "PAIR_ID_NOT_FOUND", some 1, some [83]⟩]
    ∧ truthyS (resolveRow [] [] (some [([89], ([65], [67]))])
        ⟨1, [83], [80], [88], [88], none, none⟩).1.i7 = false
    ∧ ∀ p ∈ (resolveRow [] [] (some [([89], ([65], [67]))])
        ⟨1, [83], [80], [88], [88], none, none⟩).2,
        p.code ≠ "I7_SEQUENCE_NOT_RESOLVED" := by
  refine ⟨rfl, rfl, ?_⟩
  intro p hp
  simp only [show (resolveRow [] [] (some [([89], ([65], [67]))])
      ⟨1, [83], [80], [88], [88], none, none⟩).2 =
    [⟨Level.error, "PAIR_ID_NOT_FOUND", some 1, some [83]⟩] from rfl,
    List.mem_singleton] at hp
  subst hp
  decide

/-- C7 witness: a row with both sequences present is returned with the
normalized sequences and no problems. -/
theorem resolve_keeps_present_sequences_witness :
    resolve_indexes [⟨1, [83], [80], [88], [89], some [97, 99], some [116, 116]⟩]
        [([88], [71, 71])] [([89], [84, 84])] none =
      ([⟨1, [83], [80], [88], [89], some [65, 67], some [84, 84]⟩], []) :=
  (resolve_keeps_present_sequences [([88], [71, 71])] [([89], [84, 84])] [] [] none none
    ⟨1, [83], [80], [88], [89], some [97, 99], some [116, 116]⟩
    [65, 67] [84, 84] (by decide) (by decide)).2.2

/-! ### Claim C6: lane expansion -/

theorem any_map_eq {α β : Type} (f : α → β) (p : β → Bool) (l : List α) :
    (l.map f).any p = l.any (fun a => p (f a)) := by
  induction l with
  | nil => rfl
  | cons a t ih => simp [ih]

/-- C6 (amended): a table whose lane cells all pass the empty check and
the format pattern but where some cell repeats a digit fails with the
duplicate-in-cell error; a `"1,2,4"` cell expands to exactly three rows
with lanes 1, 2, 4, each carrying the source row's other fields verbatim;
and a non-empty, non-`nan` cell failing the pattern is rejected as the
fatal format error (empty or `nan` cells are rejected earlier as the
lane-empty error). -/
theorem expand_lanes_spec {α : Type} :
    (∀ rows : List (PyStr × α),
      (∀ c ∈ rows, ¬(pyStrip c.1 = [] ∨ pyLower (pyStrip c.1) = strnan)) →
      (∀ c ∈ rows, laneFmt (pyStrip c.1) = true) →
      (∃ c ∈ rows,
        (splitSep (pyStrip c.1)).length ≠ (uniqueFirst (splitSep (pyStrip c.1))).length) →
      expand_lanes rows = Except.error LaneError.laneDuplicateInCell)
    ∧ (∀ p : α, expand_lanes [(([49, 44, 50, 44, 52] : PyStr), p)] =
        Except.ok [(1, p), (2, p), (4, p)])
    ∧ (∀ rows : List (PyStr × α),
      (∀ c ∈ rows, ¬(pyStrip c.1 = [] ∨ pyLower (pyStrip c.1) = strnan)) →
      (∃ c ∈ rows, laneFmt (pyStrip c.1) = false) →
      expand_lanes rows = Except.error LaneError.laneFormatInvalid) := by
  refine ⟨?_, ?_, ?_⟩
  · intro rows h1 h2 h3
    have hc1 : (rows.map (fun r => pyStrip r.1)).any
        (fun c => c = [] || pyLower c = strnan) = false := by
      rw [any_map_eq, List.any_eq_false]
      intro c hc
      have hn := h1 c hc
      simp only [Function.comp_apply, Bool.or_eq_true, decide_eq_true_eq]
      exact fun h => hn h
    have hc2 : (rows.map (fun r => pyStrip r.1)).any (fun c => !laneFmt c) = false := by
      rw [any_map_eq, List.any_eq_false]
      intro c hc
      simp [h2 c hc]
    have hc3 : ((rows.map (fun r => pyStrip r.1)).map splitSep).any
        (fun xs => xs.length ≠ (uniqueFirst xs).length) = true := by
      rw [any_map_eq, any_map_eq, List.any_eq_true]
      obtain ⟨c, hc, hne⟩ := h3
      exact ⟨c, hc, by simpa using hne⟩
    simp only [expand_lanes, hc1, hc2, hc3, Bool.false_eq_true, if_false, if_true]
  · intro p
    rfl
  · intro rows h1 h2
    have hc1 : (rows.map (fun r => pyStrip r.1)).any
        (fun c => c = [] || pyLower c = strnan) = false := by
      rw [any_map_eq, List.any_eq_false]
      intro c hc
      have hn := h1 c hc
      simp only [Function.comp_apply, Bool.or_eq_true, decide_eq_true_eq]
      exact fun h => hn h
    have hc2 : (rows.map (fun r => pyStrip r.1)).any (fun c => !laneFmt c) = true := by
      rw [any_map_eq, List.any_eq_true]
      obtain ⟨c, hc, hcf⟩ := h2
      exact ⟨c, hc, by simp [Function.comp_apply, hcf]⟩
    simp only [expand_lanes, hc1, hc2, Bool.false_eq_true, if_false, if_true]

/-- C6 witness: duplicate `"1,1,2"` fails, `"1,2,4"` expands to three
copies, and `"0"` is a format error. -/
theorem expand_lanes_spec_witness :
    expand_lanes [(([49, 44, 49, 44, 50] : PyStr), (0 : Nat))] =
      Except.error LaneError.laneDuplicateInCell
    ∧ expand_lanes [(([49, 44, 50, 44, 52] : PyStr), (5 : Nat))] =
      Except.ok [(1, 5), (2, 5), (4, 5)]
    ∧ expand_lanes [(([48] : PyStr), (0 : Nat))] =
      Except.error LaneError.laneFormatInvalid :=
  ⟨expand_lanes_spec.1 [([49, 44, 49, 44, 50], 0)] (by decide) (by decide) (by decide),
   expand_lanes_spec.2.1 5,
   expand_lanes_spec.2.2 [([48], 0)] (by decide) (by decide)⟩

/-- C6 counterexample: the empty lane cell does not match the pattern but
is rejected with the lane-empty error, not the format error the claim
prescribes for every non-matching cell. -/
theorem expand_lanes_counterexample :
    expand_lanes [(([] : PyStr), (0 : Nat))] = Except.error LaneError.laneEmpty
    ∧ laneFmt (pyStrip ([] : PyStr)) = false
    ∧ LaneError.laneEmpty ≠ LaneError.laneFormatInvalid :=
  ⟨rfl, rfl, by decide⟩

/-! ### Claim C9: truncation of loader failure messages -/

/-- A paired-index table with eleven pair IDs, each repeated once
(22 rows, all sequences present). -/
def elevenDupPairRows : List (PyStr × Option PyStr × Option PyStr) :=
  ([65, 66, 67, 68, 69, 70, 71, 72, 73, 74, 75] : List Nat).flatMap
    (fun c => [([c], some [67], some [71]), ([c], some [67], some [71])])

/-- C9 (amended): single-index failures and the paired missing-sequence
failure enumerate the first 20 offending IDs (or sequences) and flag
truncation exactly beyond 20; the paired duplicate-ID failure enumerates
only the first 10 and flags truncation beyond 10. -/
theorem load_table_failure_truncation :
    (∀ rows : List (PyStr × Option PyStr),
      (∀ ids tr, load_single_index_table rows = Except.error (LoadError.missingSeq ids tr) →
        ids.length ≤ 20 ∧ ids = (singleMissingIds rows).take 20 ∧
          (tr = true ↔ 20 < (singleMissingIds rows).length))
      ∧ (∀ ids tr, load_single_index_table rows = Except.error (LoadError.dupId ids tr) →
        ids.length ≤ 20 ∧ ids = (singleDupIds rows).take 20 ∧
          (tr = true ↔ 20 < (singleDupIds rows).length))
      ∧ (∀ seqs tr, load_single_index_table rows = Except.error (LoadError.dupSeq seqs tr) →
        seqs.length ≤ 20 ∧ seqs = (singleDupSeqs rows).take 20 ∧
          (tr = true ↔ 20 < (singleDupSeqs rows).length)))
    ∧ (∀ rows : List (PyStr × Option PyStr × Option PyStr),
      (∀ ids tr, load_paired_index_table rows = Except.error (PairLoadError.missingSeq ids tr) →
        ids.length ≤ 20 ∧ ids = (pairMissingIds rows).take 20 ∧
          (tr = true ↔ 20 < (pairMissingIds rows).length))
      ∧ (∀ ids tr, load_paired_index_table rows = Except.error (PairLoadError.dupId ids tr) →
        ids.length ≤ 10 ∧ ids = (pairDupIds rows).take 10 ∧
          (tr = true ↔ 10 < (pairDupIds rows).length))) := by
  constructor
  · intro rows
    refine ⟨?_, ?_, ?_⟩ <;> intro xs tr h <;> unfold load_single_index_table at h <;>
      split at h <;> try split at h
    all_goals try split at h
    all_goals simp only [Except.error.injEq, Except.ok.injEq, LoadError.missingSeq.injEq,
      LoadError.dupId.injEq, LoadError.dupSeq.injEq, reduceCtorEq] at h
    all_goals obtain ⟨h1, h2⟩ := h
    all_goals subst h1
    all_goals subst h2
    all_goals refine ⟨by rw [List.length_take]; exact Nat.min_le_left _ _, rfl, by simp⟩
  · intro rows
    refine ⟨?_, ?_⟩ <;> intro xs tr h <;> unfold load_paired_index_table at h <;>
      split at h <;> try split at h
    all_goals simp only [Except.error.injEq, Except.ok.injEq,
      PairLoadError.missingSeq.injEq, PairLoadError.dupId.injEq, reduceCtorEq] at h
    all_goals obtain ⟨h1, h2⟩ := h
    all_goals subst h1
    all_goals subst h2
    all_goals refine ⟨by rw [List.length_take]; exact Nat.min_le_left _ _, rfl, by simp⟩

/-- C9 witness: on the 11-duplicate paired table, the failure enumerates
ten IDs and sets the truncation flag. -/
theorem load_table_failure_truncation_witness :
    ([[65], [66], [67], [68], [69], [70], [71], [72], [73], [74]] :
        List PyStr).length ≤ 10
    ∧ ([[65], [66], [67], [68], [69], [70], [71], [72], [73], [74]] : List PyStr) =
        (pairDupIds elevenDupPairRows).take 10
    ∧ (true = true ↔ 10 < (pairDupIds elevenDupPairRows).length) :=
  ((load_table_failure_truncation.2 elevenDupPairRows).2
    [[65], [66], [67], [68], [69], [70], [71], [72], [73], [74]] true (by rfl))

/-- C9 counterexample: the paired duplicate-ID failure truncates at ten:
with eleven offending pair IDs the message enumerates only ten of them and
carries the truncation indicator, though the claim allows an indicator
only beyond twenty offenders. -/
theorem load_paired_truncation_counterexample :
    load_paired_index_table elevenDupPairRows =
      Except.error (PairLoadError.dupId
        [[65], [66], [67], [68], [69], [70], [71], [72], [73], [74]] true)
    ∧ (pairDupIds elevenDupPairRows).length = 11
    ∧ ¬ 20 < (pairDupIds elevenDupPairRows).length := by
  refine ⟨rfl, rfl, by decide⟩

/-! ### Claims C10/C1: per-lane validation -/

theorem mem_uniqueFirst_go {α : Type} [DecidableEq α] (a : α) :
    ∀ (l : List α) (seen : List α),
      (a ∈ uniqueFirst.go seen l ↔ a ∈ l ∧ a ∉ seen) := by
  intro l
  induction l with
  | nil => intro seen; simp [uniqueFirst.go]
  | cons b t ih =>
    intro seen
    unfold uniqueFirst.go
    by_cases hb : b ∈ seen
    · rw [if_pos hb, ih]
      constructor
      · rintro ⟨ht, hs⟩
        exact ⟨List.mem_cons_of_mem b ht, hs⟩
      · rintro ⟨hbt, hs⟩
        rcases List.mem_cons.mp hbt with rfl | ht
        · exact absurd hb hs
        · exact ⟨ht, hs⟩
    · rw [if_neg hb]
      simp only [List.mem_cons, ih]
      constructor
      · rintro (rfl | ⟨ht, hs⟩)
        · exact ⟨Or.inl rfl, hb⟩
        · exact ⟨Or.inr ht, fun hc => hs (Or.inr hc)⟩
      · rintro ⟨rfl | ht, hs⟩
        · exact Or.inl rfl
        · by_cases hab : a = b
          · exact Or.inl hab
          · exact Or.inr ⟨ht, fun hc => by
              rcases hc with h | h
              · exact hab h
              · exact hs h⟩

theorem mem_uniqueFirst {α : Type} [DecidableEq α] (a : α) (l : List α) :
    a ∈ uniqueFirst l ↔ a ∈ l := by
  unfold uniqueFirst
  rw [mem_uniqueFirst_go]
  simp

theorem mem_sortedLanes (df : List Row) (lane : Int) :
    lane ∈ sortedLanes df ↔ ∃ r ∈ df, r.lane = lane := by
  unfold sortedLanes
  rw [(List.perm_insertionSort _ _).mem_iff, mem_uniqueFirst]
  constructor
  · intro h
    obtain ⟨r, hr, he⟩ := List.mem_map.mp h
    exact ⟨r, hr, he⟩
  · rintro ⟨r, hr, rfl⟩
    exact List.mem_map_of_mem _ hr

theorem lookup_lane_map {β : Type} (lanes : List Int) (f : Int → β) (lane : Int)
    (h : lane ∈ lanes) :
    lookupKV (lanes.map (fun l => (l, f l))) lane = some (f lane) := by
  induction lanes with
  | nil => simp at h
  | cons l ls ih =>
    rw [List.map_cons]
    unfold lookupKV
    by_cases he : lane = l
    · subst he
      rw [if_pos rfl]
    · rw [if_neg he]
      exact ih (by rcases List.mem_cons.mp h with h' | h'
                   · exact absurd h' he
                   · exact h')

theorem validate_mm_lookup (df : List Row) (lane : Int)
    (h : lane ∈ sortedLanes df) :
    lookupKV (validate_indexes_per_lane df).2 lane =
      some (processLane (df.filter (fun r => r.lane = lane)) lane).2 := by
  unfold validate_indexes_per_lane
  simp only [List.map_map]
  exact lookup_lane_map (sortedLanes df)
    (fun l => (processLane (df.filter (fun r => r.lane = l)) l).2) lane h

theorem processLane_missing_i7 (td : List Row) (lane : Int)
    (h : ∃ r ∈ td, normalize_seq r.i7 = none) :
    processLane td lane =
      ([⟨Level.error, "I7_MISSING", some lane, none⟩], DEFAULT_BARCODE_MISMATCHES) := by
  unfold processLane
  rw [if_pos]
  rw [any_map_eq, List.any_eq_true]
  obtain ⟨r, hr, he⟩ := h
  exact ⟨r, hr, by simp [he]⟩

/-- C10: the mismatch-tolerance map has an entry for every lane occurring
in the table; a lane whose barcode checks are skipped because a row is
missing its i7 sequence still gets the default tolerance 1 (and the
`I7_MISSING` ERROR is recorded for that lane). -/
theorem lane_mismatch_policy_total (df : List Row) (lane : Int)
    (hmem : ∃ r ∈ df, r.lane = lane) :
    lookupKV (validate_indexes_per_lane df).2 lane =
      some (processLane (df.filter (fun r => r.lane = lane)) lane).2
    ∧ ((∃ r ∈ df.filter (fun r => r.lane = lane), normalize_seq r.i7 = none) →
        lookupKV (validate_indexes_per_lane df).2 lane = some 1
        ∧ (⟨Level.error, "I7_MISSING", some lane, none⟩ : Problem) ∈
            (validate_indexes_per_lane df).1) := by
  have hl : lane ∈ sortedLanes df := (mem_sortedLanes df lane).mpr hmem
  refine ⟨validate_mm_lookup df lane hl, ?_⟩
  intro hmiss
  have hp := processLane_missing_i7 (df.filter (fun r => r.lane = lane)) lane hmiss
  constructor
  · rw [validate_mm_lookup df lane hl, hp]
    rfl
  · unfold validate_indexes_per_lane
    simp only [List.map_map]
    rw [List.mem_flatten]
    refine ⟨(processLane (df.filter (fun r => r.lane = lane)) lane).1, ?_, ?_⟩
    · rw [List.mem_map]
      exact ⟨lane, hl, rfl⟩
    · rw [hp]
      exact List.mem_singleton.mpr rfl

/-- C10 witness: a one-row table with a missing i7 gets a map entry with
the default tolerance and the `I7_MISSING` error. -/
theorem lane_mismatch_policy_total_witness :
    lookupKV (validate_indexes_per_lane [⟨3, [83], [80], [], [], none, none⟩]).2 3 =
      some 1
    ∧ (⟨Level.error, "I7_MISSING", some 3, none⟩ : Problem) ∈
        (validate_indexes_per_lane [⟨3, [83], [80], [], [], none, none⟩]).1 :=
  (lane_mismatch_policy_total [⟨3, [83], [80], [], [], none, none⟩] 3
    ⟨⟨3, [83], [80], [], [], none, none⟩, by simp, rfl⟩).2
    ⟨⟨3, [83], [80], [], [], none, none⟩, by simp, rfl⟩

/-! ### Claim C5: lookup merging -/

theorem lookupKV_mem {K V : Type} [DecidableEq K] (l : List (K × V)) (k : K) (v : V)
    (h : lookupKV l k = some v) : (k, v) ∈ l := by
  induction l with
  | nil => simp [lookupKV] at h
  | cons p t ih =>
    rcases p with ⟨k0, v0⟩
    unfold lookupKV at h
    by_cases he : k = k0
    · rw [if_pos he] at h
      simp only [Option.some.injEq] at h
      subst he; subst h
      exact List.mem_cons_self _ _
    · rw [if_neg he] at h
      exact List.mem_cons_of_mem _ (ih h)

theorem mem_lookupKV_isSome {K V : Type} [DecidableEq K] (l : List (K × V)) (k : K) (v : V)
    (h : (k, v) ∈ l) : ∃ w, lookupKV l k = some w := by
  induction l with
  | nil => simp at h
  | cons p t ih =>
    rcases p with ⟨k0, v0⟩
    unfold lookupKV
    by_cases he : k = k0
    · exact ⟨v0, by rw [if_pos he]⟩
    · rw [if_neg he]
      rcases List.mem_cons.mp h with h0 | h0
      · cases h0
        exact absurd rfl he
      · exact ih h0

theorem lookupKV_eq_of_agree {V : Type} (l : List (PyStr × V)) (hagree : agreeOn l)
    (k : PyStr) (v : V) (h : (k, v) ∈ l) : lookupKV l k = some v := by
  obtain ⟨w, hw⟩ := mem_lookupKV_isSome l k v h
  rw [hw, hagree k w v (lookupKV_mem l k w hw) h]

/-- First-wins combination of two optional values (`dict` precedence). -/
def orFirst {V : Type} (o fallback : Option V) : Option V :=
  match o with
  | some v => some v
  | none => fallback

theorem lookupKV_cons {K V : Type} [DecidableEq K] (k0 : K) (v0 : V)
    (t : List (K × V)) (q : K) :
    lookupKV ((k0, v0) :: t) q = if q = k0 then some v0 else lookupKV t q := rfl

theorem lookupKV_append {V : Type} (l1 l2 : List (PyStr × V)) (k : PyStr) :
    lookupKV (l1 ++ l2) k = orFirst (lookupKV l1 k) (lookupKV l2 k) := by
  induction l1 with
  | nil => simp [lookupKV, orFirst]
  | cons p t ih =>
    rcases p with ⟨k0, v0⟩
    rw [List.cons_append, lookupKV_cons, lookupKV_cons]
    by_cases he : k = k0
    · rw [if_pos he, if_pos he]
      rfl
    · rw [if_neg he, if_neg he, ih]

theorem insertChecked_found_eq {V : Type} [DecidableEq V] (acc : List (PyStr × V))
    (k1 : PyStr) (v1 w : V) (hw : lookupKV acc k1 = some w) (hv : w = v1) :
    insertChecked acc k1 v1 = Except.ok acc := by
  unfold insertChecked
  rw [hw]
  show (if w = v1 then (Except.ok acc : Except (Collision V) (List (PyStr × V)))
    else Except.error ⟨k1, w, v1⟩) = Except.ok acc
  rw [if_pos hv]

theorem insertChecked_clash_eq {V : Type} [DecidableEq V] (acc : List (PyStr × V))
    (k1 : PyStr) (v1 w : V) (hw : lookupKV acc k1 = some w) (hv : ¬w = v1) :
    insertChecked acc k1 v1 = Except.error ⟨k1, w, v1⟩ := by
  unfold insertChecked
  rw [hw]
  show (if w = v1 then (Except.ok acc : Except (Collision V) (List (PyStr × V)))
    else Except.error ⟨k1, w, v1⟩) = Except.error ⟨k1, w, v1⟩
  rw [if_neg hv]

theorem insertChecked_new_eq {V : Type} [DecidableEq V] (acc : List (PyStr × V))
    (k1 : PyStr) (v1 : V) (hw : lookupKV acc k1 = none) :
    insertChecked acc k1 v1 = Except.ok (acc ++ [(k1, v1)]) := by
  unfold insertChecked
  rw [hw]

theorem mergeAux_cons_eq {V : Type} [DecidableEq V] (acc tl : List (PyStr × V))
    (k1 : PyStr) (v1 : V) :
    mergeAux acc ((k1, v1) :: tl) =
      match insertChecked acc k1 v1 with
      | Except.ok acc2 => mergeAux acc2 tl
      | Except.error e => Except.error e := rfl

theorem mergeAux_ok_lookup {V : Type} [DecidableEq V] :
    ∀ (ps acc res : List (PyStr × V)), mergeAux acc ps = Except.ok res →
      ∀ k, lookupKV res k = orFirst (lookupKV acc k) (lookupKV ps k) := by
  intro ps
  induction ps with
  | nil =>
    intro acc res h k
    simp only [mergeAux, Except.ok.injEq] at h
    rw [← h]
    cases hacc : lookupKV acc k <;> simp [orFirst, lookupKV]
  | cons p tl ih =>
    rcases p with ⟨k1, v1⟩
    intro acc res h k
    rw [mergeAux_cons_eq] at h
    cases hw : lookupKV acc k1 with
    | some w =>
      by_cases hv : w = v1
      · rw [insertChecked_found_eq acc k1 v1 w hw hv] at h
        rw [ih acc res h k, lookupKV_cons]
        by_cases hk : k = k1
        · rw [hk, hw, if_pos rfl]
          subst hv
          simp [orFirst]
        · rw [if_neg hk]
      · rw [insertChecked_clash_eq acc k1 v1 w hw hv] at h
        simp at h
    | none =>
      rw [insertChecked_new_eq acc k1 v1 hw] at h
      rw [ih (acc ++ [(k1, v1)]) res h k, lookupKV_append, lookupKV_cons]
      cases hacc : lookupKV acc k with
      | some w0 => simp [orFirst]
      | none =>
        by_cases hk : k = k1 <;>
          simp [orFirst, lookupKV_cons, lookupKV, hk]

/-- The accumulator never contradicts the remaining pairs. -/
def compatKV {V : Type} (acc ps : List (PyStr × V)) : Prop :=
  ∀ k v w, lookupKV acc k = some v → (k, w) ∈ ps → v = w

theorem mergeAux_ok_iff {V : Type} [DecidableEq V] :
    ∀ (ps acc : List (PyStr × V)),
      (∃ res, mergeAux acc ps = Except.ok res) ↔ (agreeOn ps ∧ compatKV acc ps) := by
  intro ps
  induction ps with
  | nil =>
    intro acc
    constructor
    · intro _
      exact ⟨fun k v w hv hw => absurd hv (by simp), fun k v w _ hw => absurd hw (by simp)⟩
    · intro _
      exact ⟨acc, rfl⟩
  | cons p tl ih =>
    rcases p with ⟨k1, v1⟩
    intro acc
    cases hw : lookupKV acc k1 with
    | some w =>
      by_cases hv : w = v1
      · have hM : mergeAux acc ((k1, v1) :: tl) = mergeAux acc tl := by
          rw [mergeAux_cons_eq, insertChecked_found_eq acc k1 v1 w hw hv]
        rw [hM, ih acc]
        subst hv
        constructor
        · rintro ⟨hagree, hcompat⟩
          refine ⟨?_, ?_⟩
          · intro k a b ha hb
            rcases List.mem_cons.mp ha with ha0 | ha0 <;>
              rcases List.mem_cons.mp hb with hb0 | hb0
            · cases ha0; cases hb0; rfl
            · cases ha0
              exact hcompat k1 w b hw hb0
            · cases hb0
              exact (hcompat k1 w a hw ha0).symm
            · exact hagree k a b ha0 hb0
          · intro k a b ha hb
            rcases List.mem_cons.mp hb with hb0 | hb0
            · cases hb0
              rw [hw] at ha
              exact (Option.some.inj ha).symm
            · exact hcompat k a b ha hb0
        · rintro ⟨hagree, hcompat⟩
          refine ⟨?_, ?_⟩
          · intro k a b ha hb
            exact hagree k a b (List.mem_cons_of_mem _ ha) (List.mem_cons_of_mem _ hb)
          · intro k a b ha hb
            exact hcompat k a b ha (List.mem_cons_of_mem _ hb)
      · have hM : mergeAux acc ((k1, v1) :: tl) = Except.error ⟨k1, w, v1⟩ := by
          rw [mergeAux_cons_eq, insertChecked_clash_eq acc k1 v1 w hw hv]
        rw [hM]
        constructor
        · rintro ⟨res, h⟩
          simp at h
        · rintro ⟨_, hcompat⟩
          exact absurd (hcompat k1 w v1 hw (List.mem_cons_self _ _)) hv
    | none =>
      have hM : mergeAux acc ((k1, v1) :: tl) = mergeAux (acc ++ [(k1, v1)]) tl := by
        rw [mergeAux_cons_eq, insertChecked_new_eq acc k1 v1 hw]
      rw [hM, ih (acc ++ [(k1, v1)])]
      have hnew : lookupKV (acc ++ [(k1, v1)]) k1 = some v1 := by
        rw [lookupKV_append, hw, lookupKV_cons, if_pos rfl]
        rfl
      have hold : ∀ k, k ≠ k1 → lookupKV (acc ++ [(k1, v1)]) k = lookupKV acc k := by
        intro k hk
        rw [lookupKV_append, lookupKV_cons, if_neg hk]
        cases hacc : lookupKV acc k <;> simp [orFirst, lookupKV]
      constructor
      · rintro ⟨hagree, hcompat⟩
        refine ⟨?_, ?_⟩
        · intro k a b ha hb
          rcases List.mem_cons.mp ha with ha0 | ha0 <;>
            rcases List.mem_cons.mp hb with hb0 | hb0
          · cases ha0; cases hb0; rfl
          · cases ha0
            exact hcompat k1 v1 b hnew hb0
          · cases hb0
            exact (hcompat k1 v1 a hnew ha0).symm
          · exact hagree k a b ha0 hb0
        · intro k a b ha hb
          rcases List.mem_cons.mp hb with hb0 | hb0
          · cases hb0
            rw [ha] at hw
            simp at hw
          · by_cases hk : k = k1
            · rw [hk] at ha
              rw [ha] at hw
              simp at hw
            · refine hcompat k a b ?_ hb0
              rw [hold k hk, ha]
      · rintro ⟨hagree, hcompat⟩
        refine ⟨?_, ?_⟩
        · intro k a b ha hb
          exact hagree k a b (List.mem_cons_of_mem _ ha) (List.mem_cons_of_mem _ hb)
        · intro k a b ha hb
          by_cases hk : k = k1
          · rw [hk] at ha hb
            rw [hnew] at ha
            have hv1 : v1 = a := Option.some.inj ha
            subst hv1
            exact hagree k1 v1 b (List.mem_cons_self _ _) (List.mem_cons_of_mem _ hb)
          · rw [hold k hk] at ha
            exact hcompat k a b ha (List.mem_cons_of_mem _ hb)

theorem mergeAux_error_mem {V : Type} [DecidableEq V] (Q : PyStr × V → Prop) :
    ∀ (ps acc : List (PyStr × V)) (e : Collision V),
      (∀ x ∈ acc, Q x) → (∀ x ∈ ps, Q x) → mergeAux acc ps = Except.error e →
      Q (e.key, e.oldVal) ∧ Q (e.key, e.newVal) ∧ e.oldVal ≠ e.newVal := by
  intro ps
  induction ps with
  | nil =>
    intro acc e _ _ h
    simp [mergeAux] at h
  | cons p tl ih =>
    rcases p with ⟨k1, v1⟩
    intro acc e hacc hps h
    rw [mergeAux_cons_eq] at h
    cases hw : lookupKV acc k1 with
    | some w =>
      by_cases hv : w = v1
      · rw [insertChecked_found_eq acc k1 v1 w hw hv] at h
        exact ih acc e hacc (fun x hx => hps x (List.mem_cons_of_mem _ hx)) h
      · rw [insertChecked_clash_eq acc k1 v1 w hw hv] at h
        have he : Except.error (⟨k1, w, v1⟩ : Collision V) =
            (Except.error e : Except (Collision V) (List (PyStr × V))) := h
        have he2 : (⟨k1, w, v1⟩ : Collision V) = e := by
          cases he
          rfl
        subst he2
        exact ⟨hacc _ (lookupKV_mem acc k1 w hw),
          hps _ (List.mem_cons_self _ _), hv⟩
    | none =>
      rw [insertChecked_new_eq acc k1 v1 hw] at h
      refine ih (acc ++ [(k1, v1)]) e ?_ (fun x hx => hps x (List.mem_cons_of_mem _ hx)) h
      intro x hx
      rcases List.mem_append.mp hx with hx0 | hx0
      · exact hacc x hx0
      · rw [List.mem_singleton] at hx0
        subst hx0
        exact hps _ (List.mem_cons_self _ _)

theorem mem_flatten_of_perm {V : Type} (lks lks' : List (List (PyStr × V)))
    (h : lks.Perm lks') (x : PyStr × V) :
    x ∈ lks.flatten ↔ x ∈ lks'.flatten := by
  rw [List.mem_flatten, List.mem_flatten]
  constructor <;> rintro ⟨l, hl, hx⟩
  · exact ⟨l, h.mem_iff.mp hl, hx⟩
  · exact ⟨l, h.mem_iff.mpr hl, hx⟩

theorem lookupKV_nil_eq {V : Type} (k : PyStr) :
    lookupKV ([] : List (PyStr × V)) k = none := rfl

theorem mergeLookups_ok_iff {V : Type} [DecidableEq V]
    (lks : List (List (PyStr × V))) :
    (∃ m, mergeLookups lks = Except.ok m) ↔ agreeOn lks.flatten := by
  unfold mergeLookups
  rw [mergeAux_ok_iff]
  constructor
  · exact fun h => h.1
  · intro h
    exact ⟨h, fun k v w hv _ => by rw [lookupKV_nil_eq] at hv; cases hv⟩

theorem mergeLookups_ok_content {V : Type} [DecidableEq V]
    (lks : List (List (PyStr × V))) (m : List (PyStr × V))
    (hm : mergeLookups lks = Except.ok m) (k : PyStr) (v : V) :
    lookupKV m k = some v ↔ (k, v) ∈ lks.flatten := by
  have hagree : agreeOn lks.flatten := (mergeLookups_ok_iff lks).mp ⟨m, hm⟩
  have hlk := mergeAux_ok_lookup lks.flatten [] m hm k
  rw [lookupKV_nil_eq] at hlk
  have hlk2 : lookupKV m k = lookupKV lks.flatten k := hlk
  constructor
  · intro h
    rw [hlk2] at h
    exact lookupKV_mem _ _ _ h
  · intro h
    rw [hlk2]
    exact lookupKV_eq_of_agree _ hagree _ _ h

/-- The four properties of the merge loop claimed for both merge
functions, for one value type. -/
theorem mergeLookups_spec {V : Type} [DecidableEq V]
    (lks lks' : List (List (PyStr × V))) (hperm : lks.Perm lks') :
    ((∃ m, mergeLookups lks = Except.ok m) ↔ agreeOn lks.flatten)
    ∧ (∀ m, mergeLookups lks = Except.ok m →
        ∀ k v, (lookupKV m k = some v ↔ (k, v) ∈ lks.flatten))
    ∧ (∀ m m', mergeLookups lks = Except.ok m → mergeLookups lks' = Except.ok m' →
        ∀ k, lookupKV m k = lookupKV m' k)
    ∧ (∀ e, mergeLookups lks = Except.error e →
        e.oldVal ≠ e.newVal ∧ (e.key, e.oldVal) ∈ lks.flatten ∧
          (e.key, e.newVal) ∈ lks.flatten) := by
  refine ⟨mergeLookups_ok_iff lks, mergeLookups_ok_content lks, ?_, ?_⟩
  · intro m m' hm hm' k
    have hagree : agreeOn lks.flatten := (mergeLookups_ok_iff lks).mp ⟨m, hm⟩
    have hagree' : agreeOn lks'.flatten := (mergeLookups_ok_iff lks').mp ⟨m', hm'⟩
    cases h : lookupKV m k with
    | some v =>
      have hmem : (k, v) ∈ lks.flatten := (mergeLookups_ok_content lks m hm k v).mp h
      have hmem' : (k, v) ∈ lks'.flatten := (mem_flatten_of_perm lks lks' hperm _).mp hmem
      rw [(mergeLookups_ok_content lks' m' hm' k v).mpr hmem']
    | none =>
      cases h' : lookupKV m' k with
      | some v =>
        have hmem' : (k, v) ∈ lks'.flatten := (mergeLookups_ok_content lks' m' hm' k v).mp h'
        have hmem : (k, v) ∈ lks.flatten := (mem_flatten_of_perm lks lks' hperm _).mpr hmem'
        rw [(mergeLookups_ok_content lks m hm k v).mpr hmem] at h
        cases h
      | none => rfl
  · intro e he
    have := mergeAux_error_mem (fun x => x ∈ lks.flatten) lks.flatten [] e
      (by intro x hx; cases hx) (fun x hx => hx) he
    exact ⟨this.2.2, this.1, this.2.1⟩

/-- C5: merging lookups (single-index and paired) succeeds exactly when
every repeated ID carries the identical value across all sources; on
success the content is the union of the sources and is independent of the
order of the source tables; on failure the `IdCollision` error names the
ID and both (distinct) conflicting values, both present in the sources. -/
theorem merge_lookups_collision_semantics
    (lks lks' : List (List (PyStr × PyStr))) (hperm : lks.Perm lks')
    (plks plks' : List (List (PyStr × (PyStr × PyStr)))) (hpperm : plks.Perm plks') :
    (((∃ m, merge_single_lookups lks = Except.ok m) ↔ agreeOn lks.flatten)
      ∧ (∀ m, merge_single_lookups lks = Except.ok m →
          ∀ k v, (lookupKV m k = some v ↔ (k, v) ∈ lks.flatten))
      ∧ (∀ m m', merge_single_lookups lks = Except.ok m →
          merge_single_lookups lks' = Except.ok m' → ∀ k, lookupKV m k = lookupKV m' k)
      ∧ (∀ e, merge_single_lookups lks = Except.error e →
          e.oldVal ≠ e.newVal ∧ (e.key, e.oldVal) ∈ lks.flatten ∧
            (e.key, e.newVal) ∈ lks.flatten))
    ∧ (((∃ m, merge_pair_lookups plks = Except.ok m) ↔ agreeOn plks.flatten)
      ∧ (∀ m, merge_pair_lookups plks = Except.ok m →
          ∀ k v, (lookupKV m k = some v ↔ (k, v) ∈ plks.flatten))
      ∧ (∀ m m', merge_pair_lookups plks = Except.ok m →
          merge_pair_lookups plks' = Except.ok m' → ∀ k, lookupKV m k = lookupKV m' k)
      ∧ (∀ e, merge_pair_lookups plks = Except.error e →
          e.oldVal ≠ e.newVal ∧ (e.key, e.oldVal) ∈ plks.flatten ∧
            (e.key, e.newVal) ∈ plks.flatten)) :=
  ⟨mergeLookups_spec lks lks' hperm, mergeLookups_spec plks plks' hpperm⟩

/-- C5 witness: merging two single-index tables with the identical
binding for the same ID succeeds. -/
theorem merge_lookups_collision_semantics_witness :
    ∃ m, merge_single_lookups [[([65], [67])], [([65], [67])]] = Except.ok m :=
  (merge_lookups_collision_semantics
      [[([65], [67])], [([65], [67])]] [[([65], [67])], [([65], [67])]]
      (List.Perm.refl _) [] [] (List.Perm.refl _)).1.1.mpr
    (by
      intro k v w hv hw
      have hv2 : k = [65] ∧ v = [67] := by simpa using hv
      have hw2 : k = [65] ∧ w = [67] := by simpa using hw
      rw [hv2.2, hw2.2])

/-! ### Helpers for the dual-only lane distance decision (C1) -/

/-- The lane-trimmed i5 sequences of a dual-only lane. -/
def laneTrimmedI5 (td : List Row) : List PyStr :=
  (laneI5Opts td).map (fun o => (o.getD []).take (laneMinLen5 td))

/-- The pairwise effective distances `max(d_i7, d_i5)` over the
lane-trimmed sequences, as the claim describes them. -/
def effectiveDistances (td : List Row) : List Nat :=
  (allPairs ((laneI7Trim td).zip (laneTrimmedI5 td))).map
    (fun pq => Nat.max (hammingCount pq.1.1 pq.2.1) (hammingCount pq.1.2 pq.2.2))

/-- The minimum effective distance of the lane. -/
def dEffMin (td : List Row) : Nat := natMinList (effectiveDistances td)

theorem foldl_min_le_init : ∀ (t : List Nat) (a : Nat), t.foldl Nat.min a ≤ a := by
  intro t
  induction t with
  | nil => intro a; simp
  | cons b tb ih =>
    intro a
    calc (b :: tb).foldl Nat.min a = tb.foldl Nat.min (Nat.min a b) := rfl
      _ ≤ Nat.min a b := ih _
      _ ≤ a := Nat.min_le_left _ _

theorem foldl_min_le_mem : ∀ (t : List Nat) (a x : Nat), x ∈ t → t.foldl Nat.min a ≤ x := by
  intro t
  induction t with
  | nil => intro a x hx; simp at hx
  | cons b tb ih =>
    intro a x hx
    rcases List.mem_cons.mp hx with rfl | hx0
    · calc (x :: tb).foldl Nat.min a = tb.foldl Nat.min (Nat.min a x) := rfl
        _ ≤ Nat.min a x := foldl_min_le_init _ _
        _ ≤ x := Nat.min_le_right _ _
    · exact ih (Nat.min a b) x hx0

theorem natMinList_le (l : List Nat) (x : Nat) (h : x ∈ l) : natMinList l ≤ x := by
  cases l with
  | nil => simp at h
  | cons c t =>
    rcases List.mem_cons.mp h with rfl | h0
    · exact foldl_min_le_init t x
    · exact foldl_min_le_mem t c x h0

theorem filterMap_id_eq_map_getD (l : List (Option PyStr))
    (h : ∀ o ∈ l, o.isSome = true) :
    l.filterMap id = l.map (fun o => o.getD []) := by
  induction l with
  | nil => rfl
  | cons o t ih =>
    cases ho : o with
    | none =>
      have := h o (List.mem_cons_self o t)
      rw [ho] at this
      simp at this
    | some b =>
      rw [List.filterMap_cons, List.map_cons]
      simp only [id]
      rw [ih (fun x hx => h x (List.mem_cons_of_mem o hx))]
      rfl

theorem allPairs_map {β γ : Type} (f : β → γ) (l : List β) :
    allPairs (l.map f) = (allPairs l).map (Prod.map f f) := by
  induction l with
  | nil => rfl
  | cons a t ih =>
    rw [List.map_cons]
    unfold allPairs
    rw [ih, List.map_append, List.map_map, List.map_map]
    rfl

theorem mem_allPairs {β : Type} (p : β × β) (l : List β)
    (h : p ∈ allPairs l) : p.1 ∈ l ∧ p.2 ∈ l := by
  induction l with
  | nil => simp [allPairs] at h
  | cons a t ih =>
    unfold allPairs at h
    rcases List.mem_append.mp h with h0 | h0
    · obtain ⟨y, hy, he⟩ := List.mem_map.mp h0
      subst he
      exact ⟨List.mem_cons_self a t, List.mem_cons_of_mem a hy⟩
    · obtain ⟨h1, h2⟩ := ih h0
      exact ⟨List.mem_cons_of_mem a h1, List.mem_cons_of_mem a h2⟩

theorem allPairs_ne_nil {β : Type} (l : List β) (h : 2 ≤ l.length) :
    allPairs l ≠ [] := by
  cases l with
  | nil => simp at h
  | cons a t =>
    cases t with
    | nil => simp at h
    | cons b tb =>
      unfold allPairs
      simp

theorem minOptFold_map_some (l : List Nat) (h : l ≠ []) :
    minOptFold (l.map some) = some (natMinList l) := by
  have aux : ∀ (t : List Nat) (a : Nat),
      (t.map some).foldl (fun m d =>
        match d with
        | none => m
        | some dv => match m with
          | none => some dv
          | some mv => some (Nat.min mv dv)) (some a) = some (t.foldl Nat.min a) := by
    intro t
    induction t with
    | nil => intro a; rfl
    | cons b tb ih => intro a; exact ih (Nat.min a b)
  cases l with
  | nil => exact absurd rfl h
  | cons c t =>
    unfold minOptFold
    rw [List.map_cons]
    exact aux t c

theorem hamming_eval (x y : PyStr)
    (hx : normalize_seq (some x) = some x) (hy : normalize_seq (some y) = some y)
    (hlen : x.length = y.length) :
    hamming (some x) (some y) = some (hammingCount x y) := by
  unfold hamming
  rw [hx, hy]
  show (if x.length = y.length then some (hammingCount x y) else none) = _
  rw [if_pos hlen]

theorem zip_map_map {β γ β' γ' : Type} (f : β → β') (g : γ → γ')
    (l1 : List β) (l2 : List γ) :
    (l1.map f).zip (l2.map g) = (l1.zip l2).map (Prod.map f g) := by
  induction l1 generalizing l2 with
  | nil => simp
  | cons a t ih =>
    cases l2 with
    | nil => simp
    | cons b u =>
      rw [List.map_cons, List.map_cons, List.zip_cons_cons, List.zip_cons_cons,
        List.map_cons, ih]
      rfl

/-- Evaluation of `_min_effective_pair_distance` on fully-present,
already-normalized, uniformly-long trimmed sequences: it is the minimum
over all pairs of `max(d7, d5)`. -/
theorem min_effective_pair_distance_all_some (A B : List PyStr) (lA lB : Nat)
    (hlen : A.length = B.length) (h2 : 2 ≤ A.length)
    (hA : ∀ a ∈ A, normalize_seq (some a) = some a)
    (hB : ∀ b ∈ B, normalize_seq (some b) = some b)
    (hLA : ∀ a ∈ A, a.length = lA) (hLB : ∀ b ∈ B, b.length = lB) :
    min_effective_pair_distance (A.map some) (B.map some) =
      some (natMinList ((allPairs (A.zip B)).map
        (fun pq => Nat.max (hammingCount pq.1.1 pq.2.1) (hammingCount pq.1.2 pq.2.2)))) := by
  unfold min_effective_pair_distance
  rw [if_neg (by rw [List.length_map]; omega)]
  rw [zip_map_map, allPairs_map, List.map_map]
  have hcongr : ∀ pq ∈ allPairs (A.zip B),
      ((fun pq : (Option PyStr × Option PyStr) × (Option PyStr × Option PyStr) =>
        match pq.1.1, pq.1.2, pq.2.1, pq.2.2 with
        | some a7, some a5, some b7, some b5 =>
          match hamming (some a7) (some b7), hamming (some a5) (some b5) with
          | some d7, some d5 => some (Nat.max d7 d5)
          | _, _ => none
        | _, _, _, _ => none) ∘
          Prod.map (Prod.map some some) (Prod.map some some)) pq =
      some (Nat.max (hammingCount pq.1.1 pq.2.1) (hammingCount pq.1.2 pq.2.2)) := by
    rintro ⟨⟨a1, b1⟩, ⟨a2, b2⟩⟩ hpq
    obtain ⟨hp1, hp2⟩ := mem_allPairs _ _ hpq
    obtain ⟨ha1, hb1⟩ := List.of_mem_zip hp1
    obtain ⟨ha2, hb2⟩ := List.of_mem_zip hp2
    have he7 : hamming (some a1) (some a2) = some (hammingCount a1 a2) :=
      hamming_eval a1 a2 (hA a1 ha1) (hA a2 ha2)
        (by rw [hLA a1 ha1, hLA a2 ha2])
    have he5 : hamming (some b1) (some b2) = some (hammingCount b1 b2) :=
      hamming_eval b1 b2 (hB b1 hb1) (hB b2 hb2)
        (by rw [hLB b1 hb1, hLB b2 hb2])
    show (match hamming (some a1) (some a2), hamming (some b1) (some b2) with
      | some d7, some d5 => some (Nat.max d7 d5)
      | _, _ => none) = some (Nat.max (hammingCount a1 a2) (hammingCount b1 b2))
    rw [he7, he5]
  rw [List.map_congr_left hcongr]
  have hmap : (allPairs (A.zip B)).map
      (fun pq => some (Nat.max (hammingCount pq.1.1 pq.2.1) (hammingCount pq.1.2 pq.2.2))) =
      ((allPairs (A.zip B)).map
        (fun pq => Nat.max (hammingCount pq.1.1 pq.2.1) (hammingCount pq.1.2 pq.2.2))).map some := by
    rw [List.map_map]
    rfl
  rw [hmap, minOptFold_map_some]
  intro hnil
  have hne : allPairs (A.zip B) ≠ [] := by
    apply allPairs_ne_nil
    rw [List.length_zip]
    omega
  rw [List.map_eq_nil_iff] at hnil
  exact hne hnil

/-- When every row of the lane has an i5, `i5_trim_by_row` is the claim's
trimmed-i5 list with every entry present. -/
theorem laneI5Trim_eq_map_some (td : List Row)
    (h5 : ∀ o ∈ laneI5Opts td, o.isSome = true) :
    laneI5Trim td = (laneTrimmedI5 td).map some := by
  unfold laneI5Trim laneTrimmedI5
  rw [List.map_map]
  apply List.map_congr_left
  intro o ho
  cases o with
  | none => exact absurd (h5 none ho) (by simp)
  | some b => rfl

theorem laneI7Trim_length (td : List Row) (x : PyStr) (hx : x ∈ laneI7Trim td) :
    x.length = laneMinLen7 td := by
  unfold laneI7Trim at hx
  obtain ⟨y, hy, rfl⟩ := List.mem_map.mp hx
  rw [List.length_take]
  refine Nat.min_eq_left ?_
  unfold laneMinLen7
  exact natMinList_le _ _ (List.mem_map_of_mem _ hy)

theorem laneMinLen5_le (td : List Row)
    (h5 : ∀ o ∈ laneI5Opts td, o.isSome = true)
    (o : Option PyStr) (ho : o ∈ laneI5Opts td) :
    laneMinLen5 td ≤ (o.getD []).length := by
  unfold laneMinLen5
  rw [filterMap_id_eq_map_getD _ h5]
  cases hL : laneI5Opts td with
  | nil => rw [hL] at ho; simp at ho
  | cons a t =>
    rw [hL] at ho
    show natMinList (((a :: t).map (fun o => o.getD [])).map (·.length)) ≤
      (o.getD []).length
    exact natMinList_le _ _ (List.mem_map_of_mem _ (List.mem_map_of_mem _ ho))

theorem laneTrimmedI5_length (td : List Row)
    (h5 : ∀ o ∈ laneI5Opts td, o.isSome = true)
    (x : PyStr) (hx : x ∈ laneTrimmedI5 td) :
    x.length = laneMinLen5 td := by
  unfold laneTrimmedI5 at hx
  obtain ⟨o, ho, rfl⟩ := List.mem_map.mp hx
  rw [List.length_take]
  exact Nat.min_eq_left (laneMinLen5_le td h5 o ho)

theorem laneRowsT_length (td : List Row) : (laneRowsT td).length = td.length := by
  unfold laneRowsT laneI7Trim laneI5Trim laneI7Seqs laneI5Opts
  simp [List.length_zip]

theorem laneI7Trim_length_eq (td : List Row) :
    (laneI7Trim td).length = td.length := by
  unfold laneI7Trim laneI7Seqs
  simp

theorem laneI5Trim_length_eq (td : List Row) :
    (laneI5Trim td).length = td.length := by
  unfold laneI5Trim laneI5Opts
  simp

theorem laneTrimmedI5_length_eq (td : List Row) :
    (laneTrimmedI5 td).length = td.length := by
  unfold laneTrimmedI5 laneI5Opts
  simp

/-- A dual-only lane has no single-index rows. -/
theorem laneSingles7_nil (td : List Row)
    (h5 : ∀ o ∈ laneI5Opts td, o.isSome = true) :
    laneSingles7 td = [] := by
  unfold laneSingles7
  rw [List.map_eq_nil_iff, List.filter_eq_nil_iff]
  rintro ⟨a, b⟩ hp
  unfold laneRowsT at hp
  have hb : b ∈ laneI5Trim td := (List.of_mem_zip hp).2
  unfold laneI5Trim at hb
  obtain ⟨o, ho, rfl⟩ := List.mem_map.mp hb
  have hos := h5 o ho
  cases o with
  | none => simp at hos
  | some v => simp

/-- In a dual-only lane every row is a dual row. -/
theorem laneDualRows_eq (td : List Row)
    (h5 : ∀ o ∈ laneI5Opts td, o.isSome = true) :
    laneDualRows td = laneRowsT td := by
  unfold laneDualRows
  rw [List.filter_eq_self]
  rintro ⟨a, b⟩ hp
  unfold laneRowsT at hp
  have hb : b ∈ laneI5Trim td := (List.of_mem_zip hp).2
  unfold laneI5Trim at hb
  obtain ⟨o, ho, rfl⟩ := List.mem_map.mp hb
  have hos := h5 o ho
  cases o with
  | none => simp at hos
  | some v => simp

/-- On a dual-only lane with at least two rows, the mismatch decision is
driven exactly by the minimum effective pair distance. -/
theorem laneDecision_dual_only (td : List Row) (lane : Int)
    (h5 : ∀ o ∈ laneI5Opts td, o.isSome = true)
    (h2 : 2 ≤ td.length)
    (hnorm7 : ∀ x ∈ laneI7Trim td, normalize_seq (some x) = some x)
    (hnorm5 : ∀ x ∈ laneTrimmedI5 td, normalize_seq (some x) = some x) :
    laneDecision td lane =
      (if dEffMin td = 1 then
        ([⟨Level.warn, "DUAL_LANE_PAIR_TOO_SIMILAR_HAMMING_1", some lane, none⟩], 0)
      else if dEffMin td = 2 then
        ([⟨Level.warn, "DUAL_LANE_PAIR_SIMILAR_HAMMING_2", some lane, none⟩], 0)
      else ([], 1)) := by
  have hs : laneHasSingle td = false := by
    unfold laneHasSingle
    rw [laneSingles7_nil td h5]
    rfl
  have hdr := laneDualRows_eq td h5
  have hd : laneHasDual td = true := by
    unfold laneHasDual
    rw [hdr]
    cases hR : laneRowsT td with
    | nil =>
      have hL := laneRowsT_length td
      rw [hR] at hL
      simp at hL
      omega
    | cons a t => rfl
  have hle75 : (laneI7Trim td).length ≤ (laneI5Trim td).length :=
    le_of_eq (by rw [laneI7Trim_length_eq, laneI5Trim_length_eq])
  have hle57 : (laneI5Trim td).length ≤ (laneI7Trim td).length :=
    le_of_eq (by rw [laneI7Trim_length_eq, laneI5Trim_length_eq])
  have hfst : (laneDualRows td).map (fun p => some p.1) =
      (laneI7Trim td).map some := by
    rw [hdr]
    unfold laneRowsT
    have h1 : ((laneI7Trim td).zip (laneI5Trim td)).map
        (fun p : PyStr × Option PyStr => some p.1) =
        (((laneI7Trim td).zip (laneI5Trim td)).map Prod.fst).map some := by
      rw [List.map_map]
      rfl
    rw [h1, List.map_fst_zip _ _ hle75]
  have hsnd : (laneDualRows td).map (·.2) = (laneTrimmedI5 td).map some := by
    rw [hdr]
    unfold laneRowsT
    have h1 : ((laneI7Trim td).zip (laneI5Trim td)).map
        (fun p : PyStr × Option PyStr => p.2) =
        ((laneI7Trim td).zip (laneI5Trim td)).map Prod.snd := rfl
    rw [h1, List.map_snd_zip _ _ hle57, laneI5Trim_eq_map_some td h5]
  have hmin : min_effective_pair_distance
      ((laneDualRows td).map (fun p => some p.1)) ((laneDualRows td).map (·.2)) =
      some (dEffMin td) := by
    rw [hfst, hsnd]
    rw [min_effective_pair_distance_all_some (laneI7Trim td) (laneTrimmedI5 td)
      (laneMinLen7 td) (laneMinLen5 td)
      (by rw [laneI7Trim_length_eq, laneTrimmedI5_length_eq])
      (by rw [laneI7Trim_length_eq]; exact h2)
      hnorm7 hnorm5
      (fun a ha => laneI7Trim_length td a ha)
      (fun b hb => laneTrimmedI5_length td h5 b hb)]
    rfl
  unfold laneDecision
  rw [hs, hd, hmin]
  rfl

/-- A problem of `validate_indexes_per_lane` comes from the group of some
occurring lane. -/
theorem mem_validate_probs (df : List Row) (p : Problem) :
    p ∈ (validate_indexes_per_lane df).1 ↔
      ∃ l ∈ sortedLanes df,
        p ∈ (processLane (df.filter (fun r => r.lane = l)) l).1 := by
  unfold validate_indexes_per_lane
  simp only [List.map_map, List.mem_flatten, List.mem_map]
  constructor
  · rintro ⟨L, ⟨l, hl, rfl⟩, hp⟩
    exact ⟨l, hl, hp⟩
  · rintro ⟨l, hl, hp⟩
    exact ⟨_, ⟨l, hl, rfl⟩, hp⟩

/-- Every problem of the distance decision carries the lane's number. -/
theorem laneDecision_lane_field (td : List Row) (l : Int) (p : Problem)
    (hp : p ∈ (laneDecision td l).1) : p.lane = some l := by
  unfold laneDecision at hp
  repeat' split at hp
  all_goals simp_all

/-- Every problem of a lane group carries the lane's number. -/
theorem processLane_lane_field (td : List Row) (l : Int) (p : Problem)
    (hp : p ∈ (processLane td l).1) : p.lane = some l := by
  unfold processLane at hp
  split at hp
  · simp at hp
    subst hp
    rfl
  · rcases List.mem_append.mp hp with hp1 | hp2
    · rcases List.mem_append.mp hp1 with hpa | hpb
      · unfold laneDupPairProbs at hpa
        split at hpa
        · obtain ⟨k, hk, rfl⟩ := List.mem_map.mp hpa
          rfl
        · simp at hpa
      · unfold laneSingleDupProbs at hpb
        split at hpb
        · obtain ⟨q, hq, he⟩ := List.mem_filterMap.mp hpb
          split at he
          · injection he with he2
            subst he2
            rfl
          · exact absurd he (by simp)
        · simp at hpb
    · exact laneDecision_lane_field td l p hp2

/-- The lane-group outcome on a dual-only lane: tolerance 0 exactly at
minimum effective distance 1 or 2, with the matching WARN; otherwise the
default tolerance 1 and no distance WARN. -/
theorem processLane_dual_only (td : List Row) (lane : Int)
    (h7 : ∀ r ∈ td, (normalize_seq r.i7).isSome = true)
    (h5 : ∀ o ∈ laneI5Opts td, o.isSome = true)
    (h2 : 2 ≤ td.length)
    (hnorm7 : ∀ x ∈ laneI7Trim td, normalize_seq (some x) = some x)
    (hnorm5 : ∀ x ∈ laneTrimmedI5 td, normalize_seq (some x) = some x) :
    (processLane td lane).2 = (if dEffMin td = 1 ∨ dEffMin td = 2 then 0 else 1)
    ∧ (dEffMin td = 1 →
        (⟨Level.warn, "DUAL_LANE_PAIR_TOO_SIMILAR_HAMMING_1", some lane, none⟩ : Problem)
          ∈ (processLane td lane).1)
    ∧ (dEffMin td = 2 →
        (⟨Level.warn, "DUAL_LANE_PAIR_SIMILAR_HAMMING_2", some lane, none⟩ : Problem)
          ∈ (processLane td lane).1)
    ∧ (dEffMin td ≠ 1 ∧ dEffMin td ≠ 2 →
        ∀ p ∈ (processLane td lane).1, p.code ∉ distanceWarnCodes) := by
  have hguard : (td.map (fun r => normalize_seq r.i7)).any (·.isNone) = false := by
    rw [any_map_eq, List.any_eq_false]
    intro r hr
    have h := h7 r hr
    cases hv : normalize_seq r.i7 with
    | none => rw [hv] at h; exact absurd h (by simp)
    | some v => simp
  have hpl : processLane td lane =
      (laneDupPairProbs td lane ++ laneSingleDupProbs td lane ++
        (laneDecision td lane).1, (laneDecision td lane).2) := by
    unfold processLane
    rw [hguard]
    rfl
  have hs : laneHasSingle td = false := by
    unfold laneHasSingle
    rw [laneSingles7_nil td h5]
    rfl
  have hsgl : laneSingleDupProbs td lane = [] := by
    unfold laneSingleDupProbs
    rw [hs]
    rfl
  have hdec := laneDecision_dual_only td lane h5 h2 hnorm7 hnorm5
  have hdup : ∀ p ∈ laneDupPairProbs td lane,
      p.code = "INDEX_DUPLICATE_IN_LANE" := by
    intro p hp
    unfold laneDupPairProbs at hp
    split at hp
    · obtain ⟨k, hk, rfl⟩ := List.mem_map.mp hp
      rfl
    · simp at hp
  refine ⟨?_, ?_, ?_, ?_⟩
  · rw [hpl]
    show (laneDecision td lane).2 = _
    rw [hdec]
    by_cases h1 : dEffMin td = 1
    · rw [if_pos h1, if_pos (Or.inl h1)]
    · rw [if_neg h1]
      by_cases hh2 : dEffMin td = 2
      · rw [if_pos hh2, if_pos (Or.inr hh2)]
      · rw [if_neg hh2, if_neg (by tauto)]
  · intro h1
    rw [hpl]
    apply List.mem_append.mpr
    right
    rw [hdec, if_pos h1]
    simp
  · intro hh2
    rw [hpl]
    apply List.mem_append.mpr
    right
    rw [hdec, if_neg (by omega), if_pos hh2]
    simp
  · rintro ⟨h1, hh2⟩ p hp
    rw [hpl] at hp
    have hp' : p ∈ laneDupPairProbs td lane ++ laneSingleDupProbs td lane ++
        (laneDecision td lane).1 := hp
    rcases List.mem_append.mp hp' with hp1 | hp2
    · rcases List.mem_append.mp hp1 with hpa | hpb
      · rw [hdup p hpa]
        decide
      · rw [hsgl] at hpb
        simp at hpb
    · rw [hdec, if_neg h1, if_neg hh2] at hp2
      simp at hp2

/-- **C1** (amended). For a dual-only lane group of the table — every row of
the lane has a present i7 and i5 after normalization, at least two rows, and
the lane-trimmed sequences are normalization fixed-points — the validator's
mismatch tolerance for the lane is 0 exactly when the minimum over all row
pairs of max(Hamming of trimmed i7, Hamming of trimmed i5) equals 1 or 2
(then the distance-specific WARN is emitted), and otherwise — including a
minimum of 0, which is below 3 — the lane keeps the default tolerance 1 and
none of its problems carries a distance WARN code. -/
theorem dual_only_lane_mismatch_decision (df : List Row) (lane : Int)
    (hmem : ∃ r ∈ df, r.lane = lane)
    (h7 : ∀ r ∈ df.filter (fun r => r.lane = lane),
      (normalize_seq r.i7).isSome = true)
    (h5 : ∀ o ∈ laneI5Opts (df.filter (fun r => r.lane = lane)),
      o.isSome = true)
    (h2 : 2 ≤ (df.filter (fun r => r.lane = lane)).length)
    (hnorm7 : ∀ x ∈ laneI7Trim (df.filter (fun r => r.lane = lane)),
      normalize_seq (some x) = some x)
    (hnorm5 : ∀ x ∈ laneTrimmedI5 (df.filter (fun r => r.lane = lane)),
      normalize_seq (some x) = some x) :
    lookupKV (validate_indexes_per_lane df).2 lane =
      some (if dEffMin (df.filter (fun r => r.lane = lane)) = 1 ∨
        dEffMin (df.filter (fun r => r.lane = lane)) = 2 then 0 else 1)
    ∧ (dEffMin (df.filter (fun r => r.lane = lane)) = 1 →
        (⟨Level.warn, "DUAL_LANE_PAIR_TOO_SIMILAR_HAMMING_1", some lane, none⟩ : Problem)
          ∈ (validate_indexes_per_lane df).1)
    ∧ (dEffMin (df.filter (fun r => r.lane = lane)) = 2 →
        (⟨Level.warn, "DUAL_LANE_PAIR_SIMILAR_HAMMING_2", some lane, none⟩ : Problem)
          ∈ (validate_indexes_per_lane df).1)
    ∧ (dEffMin (df.filter (fun r => r.lane = lane)) ≠ 1 ∧
        dEffMin (df.filter (fun r => r.lane = lane)) ≠ 2 →
        ∀ p ∈ (validate_indexes_per_lane df).1, p.lane = some lane →
          p.code ∉ distanceWarnCodes) := by
  have hl : lane ∈ sortedLanes df := (mem_sortedLanes df lane).mpr hmem
  have hP := processLane_dual_only (df.filter (fun r => r.lane = lane)) lane
    h7 h5 h2 hnorm7 hnorm5
  refine ⟨?_, ?_, ?_, ?_⟩
  · rw [validate_mm_lookup df lane hl, hP.1]
  · intro h1
    exact (mem_validate_probs df _).mpr ⟨lane, hl, hP.2.1 h1⟩
  · intro hh2
    exact (mem_validate_probs df _).mpr ⟨lane, hl, hP.2.2.1 hh2⟩
  · rintro ⟨h1, hh2⟩ p hp hplane
    obtain ⟨l, hlmem, hpl2⟩ := (mem_validate_probs df p).mp hp
    have hfield := processLane_lane_field _ l p hpl2
    have heq : some l = some lane := hfield.symm.trans hplane
    injection heq with heq
    subst heq
    exact hP.2.2.2 ⟨h1, hh2⟩ p hpl2

/-- Two dual rows of lane 1: i7 "AAAA"/"AAAT" (distance 1), i5 both
"CCCC" (distance 0), so the minimum effective distance is 1. -/
def dualLaneW : List Row :=
  [⟨1, [65], [80], [], [], some [65, 65, 65, 65], some [67, 67, 67, 67]⟩,
   ⟨1, [66], [80], [], [], some [65, 65, 65, 84], some [67, 67, 67, 67]⟩]

theorem dual_only_lane_mismatch_decision_witness :
    lookupKV (validate_indexes_per_lane dualLaneW).2 1 = some 0
    ∧ (⟨Level.warn, "DUAL_LANE_PAIR_TOO_SIMILAR_HAMMING_1", some 1, none⟩ : Problem)
        ∈ (validate_indexes_per_lane dualLaneW).1 := by
  have h := dual_only_lane_mismatch_decision dualLaneW 1
    ⟨⟨1, [65], [80], [], [], some [65, 65, 65, 65], some [67, 67, 67, 67]⟩,
      by simp [dualLaneW], rfl⟩
    (by decide) (by decide) (by decide) (by decide) (by decide)
  refine ⟨?_, h.2.1 (by decide)⟩
  rw [h.1]
  decide

/-- Two dual rows of lane 1 with identical i7 and identical i5: the minimum
effective distance is 0, yet the tolerance stays at the default 1 and no
distance WARN is emitted (only the duplicate-pair ERROR), refuting the
claim's "minimum below 3 sets tolerance 0 with a WARN". -/
def dualLaneC : List Row :=
  [⟨1, [65], [80], [], [], some [65, 65, 65, 65], some [67, 67, 67, 67]⟩,
   ⟨1, [66], [80], [], [], some [65, 65, 65, 65], some [67, 67, 67, 67]⟩]

theorem dual_only_lane_mismatch_decision_counterexample :
    dEffMin (dualLaneC.filter (fun r => r.lane = 1)) = 0
    ∧ lookupKV (validate_indexes_per_lane dualLaneC).2 1 = some 1
    ∧ ∀ p ∈ (validate_indexes_per_lane dualLaneC).1,
        p.code ∉ distanceWarnCodes := by decide

end SamplesheetTool
